import Mathlib

/-!
# OSMBuilding: building model and option resolution

A shallow embedding of `src/building.js` and `src/buildingpart.js`.

* JavaScript values are a small sum type; numbers are idealised as elements of an
  ordered field `R` together with `NaN` and the two infinities (no rounding, no
  signed zero).
* ECMAScript builtins (`parseFloat`, string-to-number conversion, `Math.*`) and the
  polygon library `BuildingShapeUtils`, which are not part of the repository sources,
  are parameters collected in `Env`.
* The parsed OSM document is a list of elements in document order.
* Mutable objects that are shared by reference (`blankOptions`) are modelled by explicit
  references, so that writes through one alias are seen through the others.
-/

namespace OSMBuilding

/-! ## JavaScript values -/

/-- Exceptions raised by the JavaScript runtime. -/
inductive JSError where
  | typeError
  | referenceError
deriving DecidableEq, Repr

/-- JavaScript numbers over the carrier `R`: `NaN`, `+Infinity`, `-Infinity`, or finite. -/
inductive JSNumber (R : Type) where
  | nan
  | posInf
  | negInf
  | fin (x : R)
deriving DecidableEq, Repr

/-- The JavaScript values that occur in the program. -/
inductive JSValue (R : Type) where
  | undefined
  | null
  | str (s : String)
  | num (n : JSNumber R)
deriving DecidableEq, Repr

namespace JSNumber

variable {R : Type} [LinearOrderedField R]

/-- Unary minus. -/
def neg : JSNumber R → JSNumber R
  | nan => nan
  | posInf => negInf
  | negInf => posInf
  | fin x => fin (-x)

/-- The infinity with the sign of `x` (`NaN` for zero). -/
def infOfSign (x : R) : JSNumber R :=
  if x = 0 then nan else if 0 < x then posInf else negInf

/-- Addition `a + b` on numbers. -/
def add : JSNumber R → JSNumber R → JSNumber R
  | fin x, fin y => fin (x + y)
  | fin _, posInf => posInf
  | fin _, negInf => negInf
  | posInf, fin _ => posInf
  | negInf, fin _ => negInf
  | posInf, posInf => posInf
  | negInf, negInf => negInf
  | _, _ => nan

/-- Subtraction `a - b`. -/
def sub (a b : JSNumber R) : JSNumber R := add a (neg b)

/-- Multiplication `a * b`. -/
def mul : JSNumber R → JSNumber R → JSNumber R
  | fin x, fin y => fin (x * y)
  | fin x, posInf => infOfSign x
  | fin x, negInf => infOfSign (-x)
  | posInf, fin y => infOfSign y
  | negInf, fin y => infOfSign (-y)
  | posInf, posInf => posInf
  | negInf, negInf => posInf
  | posInf, negInf => negInf
  | negInf, posInf => negInf
  | _, _ => nan

/-- Division `a / b`; a finite non-zero number divided by zero is an infinity
(zero is taken as positive). -/
def div : JSNumber R → JSNumber R → JSNumber R
  | fin x, fin y => if y = 0 then infOfSign x else fin (x / y)
  | fin _, posInf => fin 0
  | fin _, negInf => fin 0
  | posInf, fin y => if 0 ≤ y then posInf else negInf
  | negInf, fin y => if 0 ≤ y then negInf else posInf
  | _, _ => nan

/-- The function `Math.min(a, b)`. -/
def min : JSNumber R → JSNumber R → JSNumber R
  | nan, _ => nan
  | _, nan => nan
  | negInf, _ => negInf
  | _, negInf => negInf
  | posInf, b => b
  | a, posInf => a
  | fin x, fin y => fin (Min.min x y)

/-- The function `Math.max(a, b)`. -/
def max : JSNumber R → JSNumber R → JSNumber R
  | nan, _ => nan
  | _, nan => nan
  | posInf, _ => posInf
  | _, posInf => posInf
  | negInf, b => b
  | a, negInf => a
  | fin x, fin y => fin (Max.max x y)

/-- Lift a real function that is `NaN` at both infinities (`Math.sin`, `Math.cos`). -/
def liftBounded (f : R → R) : JSNumber R → JSNumber R
  | fin x => fin (f x)
  | _ => nan

end JSNumber

/-- Builtins of the JavaScript runtime, as far as the program calls them. -/
structure Builtins (R : Type) where
  /-- The function `parseFloat` on a string argument. -/
  parseFloat : String → JSNumber R
  /-- The conversion `ToNumber` on a string argument. -/
  stringToNumber : String → JSNumber R
  /-- The conversion `ToString` on a number. -/
  numberToString : JSNumber R → String
  /-- The function `Math.sin` on finite arguments. -/
  sin : R → R
  /-- The function `Math.cos` on finite arguments. -/
  cos : R → R
  /-- The function `Math.atan` on finite arguments. -/
  atan : R → R
  /-- The function `Math.sqrt` on non-negative finite arguments. -/
  sqrt : R → R
  /-- The constant `Math.PI`. -/
  pi : R

namespace JSValue

variable {R : Type} [LinearOrderedField R]

/-- The nullish coalescing operator `a ?? b`. -/
def nullish (a b : JSValue R) : JSValue R :=
  match a with
  | undefined => b
  | null => b
  | _ => a

/-- Whether a value is `null` or `undefined`. -/
def isNullish : JSValue R → Bool
  | undefined => true
  | null => true
  | _ => false

/-- The conversion `ToBoolean`. -/
def truthy : JSValue R → Bool
  | undefined => false
  | null => false
  | str s => s ≠ ""
  | num (.fin x) => x ≠ 0
  | num .nan => false
  | num _ => true

/-- The conversion `ToNumber`. -/
def toNumber (B : Builtins R) : JSValue R → JSNumber R
  | undefined => .nan
  | null => .fin 0
  | str s => B.stringToNumber s
  | num n => n

/-- The product `a * b`. -/
def times (B : Builtins R) (a b : JSValue R) : JSValue R :=
  num ((toNumber B a).mul (toNumber B b))

/-- The difference `a - b`. -/
def minus (B : Builtins R) (a b : JSValue R) : JSValue R :=
  num ((toNumber B a).sub (toNumber B b))

/-- The quotient `a / b`. -/
def over (B : Builtins R) (a b : JSValue R) : JSValue R :=
  num ((toNumber B a).div (toNumber B b))

/-- The conversion `ToString`. -/
def toStr (B : Builtins R) : JSValue R → String
  | undefined => "undefined"
  | null => "null"
  | str s => s
  | num n => B.numberToString n

/-- The sum `a + b`: concatenation as soon as one operand is a string. -/
def plus (B : Builtins R) (a b : JSValue R) : JSValue R :=
  match a, b with
  | str s, _ => str (s ++ toStr B b)
  | _, str t => str (toStr B a ++ t)
  | _, _ => num ((toNumber B a).add (toNumber B b))

/-- The global function `parseFloat`, which first converts its argument to a string;
the strings "undefined" and "null" have no numeric prefix. -/
def parseFloat (B : Builtins R) : JSValue R → JSNumber R
  | undefined => .nan
  | null => .nan
  | str s => B.parseFloat s
  | num n => B.parseFloat (B.numberToString n)

end JSValue

/-! ## The OSM document -/

/-- A `tag` child element: `<tag k="..." v="..."/>`. -/
structure Tag where
  k : String
  v : String
deriving DecidableEq, Repr

/-- A `member` child element of a relation. -/
structure Member where
  type : String
  ref : String
  role : String
deriving DecidableEq, Repr

/-- A top-level element of the document (`node`, `way` or `relation`) with its children
in document order; `nds` holds the `ref` attributes of the `nd` children. -/
structure Element where
  tagName : String
  id : String
  tags : List Tag
  nds : List String
  members : List Member
  lon : Option String
  lat : Option String
deriving DecidableEq, Repr

/-- The parsed XML document: its elements in document order. -/
abbrev Document := List Element

/-- The method `String.prototype.toLowerCase`. -/
def toLowerCase (s : String) : String := String.mk (s.data.map Char.toLower)

/-- The method `document.getElementById`: the first element with that id. -/
def getElementById (doc : Document) (id : String) : Option Element :=
  doc.find? (fun e => e.id = id)

/-- The call `element.querySelector('[k="key"]')`: the first tag with that key. -/
def querySelectorK (e : Element) (key : String) : Option Tag :=
  e.tags.find? (fun t => t.k = key)

/-- The call `element.querySelectorAll('member[role="role"]')`. -/
def querySelectorAllMembers (e : Element) (role : String) : List Member :=
  e.members.filter (fun m => m.role = role)

/-- The call `document.getElementsByTagName(name)`. -/
def getElementsByTagName (doc : Document) (name : String) : List Element :=
  doc.filter (fun e => e.tagName = name)

/-! ## Collaborators outside the sources -/

/-- A footprint (`THREE.Shape`): its outline points and its holes. -/
structure Shape (R : Type) where
  points : List (JSNumber R × JSNumber R)
  holes : List (List (JSNumber R × JSNumber R))

/-- The node table: coordinates keyed by node id. Entries are the attribute strings of
the document until they are reprojected. -/
abbrev NodeList (R : Type) := List (String × (JSValue R × JSValue R))

/-- A bounding box `[left, bottom, right, top]`. -/
structure Extents (R : Type) where
  left : JSNumber R
  bottom : JSNumber R
  right : JSNumber R
  top : JSNumber R
deriving DecidableEq, Repr

/-- Everything the two source files use without defining it: the runtime builtins, the
polygon library `BuildingShapeUtils`, the binding of the free identifier
`defaultOptions` read at the end of `setOptions`, and the alternatives that the two
conditionals in the `roof.height` chain are written without. -/
structure Env (R : Type) extends Builtins R where
  /-- The call `BuildingShapeUtils.createShape(way, nodelist)`. -/
  createShape : Option Element → NodeList R → Except JSError (Shape R)
  /-- The call `BuildingShapeUtils.extents(shape)`. -/
  extents : Shape R → Extents R
  /-- The call `BuildingShapeUtils.calulateRadius(shape)`. -/
  calulateRadius : Shape R → JSValue R
  /-- The call `BuildingShapeUtils.center(shape)`. -/
  center : Shape R → JSValue R × JSValue R
  /-- The call `BuildingShapeUtils.getWidth(shape)`. -/
  getWidth : Shape R → JSValue R
  /-- The footprint a `MultiBuildingPart` builds for itself (its `buildShape`). -/
  createMultiShape : Option Element → Document → NodeList R → Except JSError (Shape R)
  /-- The value of `defaultOptions.building.height` in the scope of `setOptions`,
  or `none` when the identifier is unbound there. -/
  defaultOptionsHeight : Option (JSValue R)
  /-- Value of `(roof.shape === 'flat' ? 0)` when the test fails. -/
  flatAlternative : JSValue R
  /-- Value of `(roof.shape === 'dome' || roof.shape === 'pyramidal' ? radius)` when the
  test fails. -/
  radiusAlternative : JSValue R

/-! ## Building parts (`buildingpart.js`) -/

/-- The `building` group of an option set. -/
structure BuildingOptions (R : Type) where
  colour : JSValue R
  ele : JSValue R
  height : JSValue R
  levels : JSValue R
  levelsUnderground : JSValue R
  material : JSValue R
  minHeight : JSValue R
  minLevel : JSValue R
  walls : JSValue R
deriving DecidableEq, Repr

/-- The `roof` group of an option set. -/
structure RoofOptions (R : Type) where
  angle : JSValue R
  colour : JSValue R
  direction : JSValue R
  height : JSValue R
  levels : JSValue R
  material : JSValue R
  orientation : JSValue R
  shape : JSValue R
deriving DecidableEq, Repr

/-- An option set: the two attribute groups. -/
structure OptionSet (R : Type) where
  building : BuildingOptions R
  roof : RoofOptions R
deriving DecidableEq, Repr

/-- The initial value of the field `blankOptions`: every entry is `null`. -/
def blankOptions {R : Type} : OptionSet R where
  building :=
    { colour := .null, ele := .null, height := .null, levels := .null,
      levelsUnderground := .null, material := .null, minHeight := .null,
      minLevel := .null, walls := .null }
  roof :=
    { angle := .null, colour := .null, direction := .null, height := .null,
      levels := .null, material := .null, orientation := .null, shape := .null }

/-- A reference to an option-set object: either the object held in the part's own field
`blankOptions`, or an object owned by the caller (the parent's options). -/
inductive OptionsRef (R : Type) where
  | blank
  | parent (o : OptionSet R)
deriving DecidableEq, Repr

/-- The object `this.options` of a part. `specified`, `building` and `roof` are unset
until `setOptions` stores a reference in them; `building` and `roof` refer to the group
of that name inside the referenced object. -/
structure PartOptions (R : Type) where
  inherited : OptionsRef R
  specified : Option (OptionsRef R)
  building : Option (OptionsRef R)
  roof : Option (OptionsRef R)
deriving DecidableEq, Repr

/-- Which class a part is an instance of. -/
inductive PartKind where
  | buildingPart
  | multiBuildingPart
deriving DecidableEq, Repr

/-- The state of a `BuildingPart` object. -/
structure BuildingPart (R : Type) where
  kind : PartKind
  id : String
  way : Element
  shape : Shape R
  nodelist : NodeList R
  type : String
  blankOptions : OptionSet R
  options : PartOptions R

/-- A state together with the exception that ended the call, if there was one. -/
structure Completion (σ : Type) where
  state : σ
  thrown : Option JSError

namespace BuildingPart

variable {R : Type} [LinearOrderedField R]

/-- The object a reference points to. -/
def deref (p : BuildingPart R) : OptionsRef R → OptionSet R
  | .blank => p.blankOptions
  | .parent o => o

/-- The value of `this.options.building`, when set. -/
def optionsBuilding (p : BuildingPart R) : Option (BuildingOptions R) :=
  p.options.building.map (fun r => (p.deref r).building)

/-- The value of `this.options.roof`, when set. -/
def optionsRoof (p : BuildingPart R) : Option (RoofOptions R) :=
  p.options.roof.map (fun r => (p.deref r).roof)

/-- The method `getAttribute(key)`: the `v` of the first tag with that key, or
`undefined` (the method falls off its end) when there is none. -/
def getAttribute (way : Element) (key : String) : JSValue R :=
  match querySelectorK way key with
  | some t => .str t.v
  | none => .undefined

/-- The static method `normalizeLength(length)`: `parseFloat(length)`. -/
def normalizeLength (E : Env R) (length : JSValue R) : JSNumber R :=
  JSValue.parseFloat E.toBuiltins length

/-- The object `this.options.inherited` as seen while `cur` is the content of
`this.blankOptions`. -/
def inheritedView (r : OptionsRef R) (cur : OptionSet R) : OptionSet R :=
  match r with
  | .blank => cur
  | .parent o => o

/-- Run a sequence of assignments, in order, on the content of an object. -/
def runAssignments (steps : List (OptionSet R → OptionSet R)) (b : OptionSet R) :
    OptionSet R :=
  steps.foldl (fun cur step => step cur) b

/-- Lines 77-93 of `setOptions`: `specifiedOptions` is the object `this.blankOptions`
itself, and every one of its seventeen entries is overwritten from the tags. -/
def specifiedAssignments (E : Env R) (way : Element) : List (OptionSet R → OptionSet R) :=
  [ fun b => { b with building.colour := getAttribute way "colour" },
    fun b => { b with building.ele := getAttribute way "ele" },
    fun b => { b with
      building.height := .num (normalizeLength E (getAttribute way "height")) },
    fun b => { b with building.levels := getAttribute way "building:levels" },
    fun b => { b with
      building.levelsUnderground := getAttribute way "building:levels:underground" },
    fun b => { b with building.material := getAttribute way "building:material" },
    fun b => { b with
      building.minHeight := .num (normalizeLength E (getAttribute way "min_height")) },
    fun b => { b with building.minLevel := getAttribute way "building:min_level" },
    fun b => { b with building.walls := getAttribute way "walls" },
    fun b => { b with roof.angle := getAttribute way "roof:angle" },
    fun b => { b with roof.colour := getAttribute way "roof:colour" },
    fun b => { b with roof.direction := getAttribute way "roof:direction" },
    fun b => { b with
      roof.height := .num (normalizeLength E (getAttribute way "roof:height")) },
    fun b => { b with roof.levels := getAttribute way "roof:levels" },
    fun b => { b with roof.material := getAttribute way "roof:material" },
    fun b => { b with roof.orientation := getAttribute way "roof:orientation" },
    fun b => { b with roof.shape := getAttribute way "roof:shape" } ]

/-- Line 114-118 of `setOptions`: the right-hand side of the assignment to
`calculatedOptions.roof.height`, a chain of `??` read from left to right. -/
def roofHeightChain (E : Env R) (inh : OptionSet R) (shape : Shape R) (b : OptionSet R) :
    JSValue R :=
  (((b.roof.height.nullish inh.roof.height).nullish
    (JSValue.times E.toBuiltins b.roof.levels (.num (.fin 3)))).nullish
    (if b.roof.shape = .str "flat" then .num (.fin 0) else E.flatAlternative)).nullish
    (if b.roof.shape = .str "dome" ∨ b.roof.shape = .str "pyramidal" then
      E.calulateRadius shape
    else E.radiusAlternative)

/-- Lines 99-118 of `setOptions`: `calculatedOptions` is again the object
`this.blankOptions`, so `this.options.specified` (set at line 95 to the same object) is
read from the current content `b`, and `this.options.inherited` through `view`. -/
def calculatedAssignments (E : Env R) (inh : OptionsRef R) (shape : Shape R) :
    List (OptionSet R → OptionSet R) :=
  let view : OptionSet R → OptionSet R := inheritedView inh
  [ fun b => { b with
      building.colour := b.building.colour.nullish (view b).building.colour },
    fun b => { b with
      building.ele :=
        (b.building.ele.nullish (view b).building.ele).nullish (.num (.fin 0)) },
    fun b => { b with
      building.levels := b.building.levels.nullish (view b).building.levels },
    fun b => { b with
      building.levelsUnderground :=
        b.building.levelsUnderground.nullish (view b).building.levelsUnderground },
    fun b => { b with
      building.material := b.building.material.nullish (view b).building.material },
    fun b => { b with
      building.minLevel := b.building.minLevel.nullish (view b).building.minLevel },
    fun b => { b with building.walls := b.building.walls.nullish (view b).building.walls },
    fun b => { b with roof.angle := b.roof.angle.nullish (view b).roof.angle },
    fun b => { b with roof.colour := b.roof.colour.nullish (view b).roof.colour },
    fun b => { b with roof.direction := b.roof.direction.nullish (view b).roof.direction },
    fun b => { b with roof.levels := b.roof.levels.nullish (view b).roof.levels },
    fun b => { b with roof.material := b.roof.material.nullish (view b).roof.material },
    fun b => { b with
      roof.orientation :=
        (b.roof.orientation.nullish (view b).roof.orientation).nullish (.str "along") },
    fun b => { b with
      roof.shape := (b.roof.shape.nullish (view b).roof.shape).nullish (.str "flat") },
    fun b => { b with roof.height := roofHeightChain E (view b) shape b } ]

/-- Lines 75-93. -/
def writeSpecified (E : Env R) (way : Element) (b : OptionSet R) : OptionSet R :=
  runAssignments (specifiedAssignments E way) b

/-- Lines 97-118. -/
def writeCalculated (E : Env R) (inh : OptionsRef R) (shape : Shape R) (b : OptionSet R) :
    OptionSet R :=
  runAssignments (calculatedAssignments E inh shape) b

/-- The method `setOptions()`. Lines 119-120 store references to the two groups of
`this.blankOptions`; the test at line 121 then reads the free identifier
`defaultOptions` as soon as the part has a non-empty `building:part` tag. The body of
that conditional only writes to the console. -/
def setOptions (E : Env R) (p : BuildingPart R) : Completion (BuildingPart R) :=
  let b := writeSpecified E p.way p.blankOptions
  let b := writeCalculated E p.options.inherited p.shape b
  let q : BuildingPart R :=
    { p with
      blankOptions := b
      options :=
        { inherited := p.options.inherited
          specified := some .blank
          building := some .blank
          roof := some .blank } }
  { state := q
    thrown :=
      if (getAttribute p.way "building:part" : JSValue R).truthy then
        match E.defaultOptionsHeight with
        | none => some .referenceError
        | some _ => none
      else none }

/-- Lines 53-62 of the constructor, run on an object whose property `options` holds an
object, so that the write of line 56 is possible. `defaultOptions` is `none` when the
argument is omitted: the empty default object is then replaced by `this.blankOptions`
itself (lines 53-55). A `way` that does not resolve makes `getAttribute` fail on
`null`. -/
def initialise (E : Env R) (id : String) (doc : Document) (nodelist : NodeList R)
    (defaultOptions : Option (OptionSet R)) : Except JSError (BuildingPart R) :=
  let inherited : OptionsRef R :=
    match defaultOptions with
    | none => .blank
    | some o => .parent o
  match E.createShape (getElementById doc id) nodelist with
  | .error e => .error e
  | .ok shape =>
    match getElementById doc id with
    | none => .error .typeError
    | some way =>
      let p : BuildingPart R :=
        { kind := .buildingPart, id := id, way := way, shape := shape, nodelist := nodelist,
          type := "way", blankOptions := OSMBuilding.blankOptions,
          options :=
            { inherited := inherited, specified := none, building := none, roof := none } }
      match (setOptions E p).thrown with
      | some e => .error e
      | none => .ok (setOptions E p).state

/-- Whether a new object has a property `options` when the constructor body starts. The
class body (lines 6-45) declares the fields `way`, `shape`, `roof`, `nodelist`,
`blankOptions` and `fullXmlData` and no field `options`, the class extends no other
class, and nothing assigns the property before line 56 reads it. -/
def declaresOptions : Bool := false

/-- The constructor `new BuildingPart(id, fullXmlData, nodelist, defaultOptions)`. Line
56, `this.options.inherited = defaultOptions`, reads `this.options`, which is
`undefined`: the assignment throws a `TypeError` before anything else is stored. -/
def create (E : Env R) (id : String) (doc : Document) (nodelist : NodeList R)
    (defaultOptions : Option (OptionSet R)) : Except JSError (BuildingPart R) :=
  if declaresOptions then initialise E id doc nodelist defaultOptions
  else .error .typeError

/-- Modelled from the spec: the class `MultiBuildingPart` (`multibuildingpart.js`), which
is imported by `building.js` but is not among the sources. A part entity has an
identifier, the shared node table, a footprint derived from its element and an option
set resolved like that of every part; only the footprint construction differs. -/
def createMulti (E : Env R) (id : String) (doc : Document) (nodelist : NodeList R)
    (defaultOptions : Option (OptionSet R)) : Except JSError (BuildingPart R) :=
  let inherited : OptionsRef R :=
    match defaultOptions with
    | none => .blank
    | some o => .parent o
  match E.createMultiShape (getElementById doc id) doc nodelist with
  | .error e => .error e
  | .ok shape =>
    match getElementById doc id with
    | none => .error .typeError
    | some way =>
      let p : BuildingPart R :=
        { kind := .multiBuildingPart, id := id, way := way, shape := shape,
          nodelist := nodelist, type := "multipolygon",
          blankOptions := OSMBuilding.blankOptions,
          options :=
            { inherited := inherited, specified := none, building := none, roof := none } }
      match (setOptions E p).thrown with
      | some e => .error e
      | none => .ok (setOptions E p).state

/-- The object `this.options` as a parent hands it to its parts: its `building` and
`roof` groups, when both are set. -/
def optionsView (p : BuildingPart R) : Option (OptionSet R) :=
  match p.optionsBuilding, p.optionsRoof with
  | some b, some r => some { building := b, roof := r }
  | _, _ => none

/-- The method `calculateHeight()`. -/
def calculateHeight (E : Env R) (p : BuildingPart R) : Except JSError (JSNumber R) :=
  match querySelectorK p.way "height" with
  | some t => .ok (normalizeLength E (.str t.v))
  | none =>
    match querySelectorK p.way "building:levels" with
    | some t =>
      match p.optionsRoof with
      | none => .error .typeError
      | some r =>
        .ok (normalizeLength E
          (JSValue.plus E.toBuiltins (JSValue.times E.toBuiltins (.num (.fin 3)) (.str t.v))
            r.height))
    | none =>
      match querySelectorK p.way "building:part" with
      | some t =>
        if t.v = "roof" then
          match p.optionsRoof with
          | none => .error .typeError
          | some r => .ok (normalizeLength E r.height)
        else .ok (normalizeLength E (.num (.fin 3)))
      | none => .ok (normalizeLength E (.num (.fin 3)))

/-- The method `calculateMinHeight()`. -/
def calculateMinHeight (E : Env R) (p : BuildingPart R) : JSNumber R :=
  match querySelectorK p.way "min_height" with
  | some t => normalizeLength E (.str t.v)
  | none =>
    match querySelectorK p.way "building:min_level" with
    | some t => normalizeLength E (JSValue.times E.toBuiltins (.num (.fin 3)) (.str t.v))
    | none => normalizeLength E (.num (.fin 0))

/-- The property read `this.options.roof.minHeight`: the `roof` group has no property of
that name (`minHeight` belongs to the `building` group) and nothing ever adds one. -/
def roofMinHeight (_r : RoofOptions R) : JSValue R := .undefined

/-- The settings `createBuilding()` hands to `THREE.ExtrudeGeometry`. -/
structure ExtrudeSettings (R : Type) where
  bevelEnabled : Bool
  depth : JSValue R

/-- The method `createBuilding()`, up to the construction of the mesh: the extrusion
settings, with `depth` the value of `extrusionHeight` (line 167). -/
def createBuilding (E : Env R) (p : BuildingPart R) : Except JSError (ExtrudeSettings R) :=
  match p.optionsBuilding, p.optionsRoof with
  | some b, some r =>
    let extrusionHeight : JSValue R :=
      JSValue.minus E.toBuiltins (JSValue.minus E.toBuiltins b.height (roofMinHeight r))
        (r.height.nullish (.num (.fin 0)))
    .ok { bevelEnabled := false, depth := extrusionHeight }
  | _, _ => .error .typeError

/-- The loop of lines 143-148 of `calculateRadius`: the table entries of the `nd`
references, in order; a reference without entry makes the read `node[1]` fail. -/
def referencedNodes (nodelist : NodeList R) : List String → Option (List (JSValue R × JSValue R))
  | [] => some []
  | ref :: rest =>
    match (nodelist.find? (fun entry => entry.1 = ref)).map (fun entry => entry.2) with
    | none => none
    | some node =>
      match referencedNodes nodelist rest with
      | none => none
      | some nodes => some (node :: nodes)

/-- The call `Math.min(...values)`: `Infinity` for no argument. -/
def spreadMin (B : Builtins R) (values : List (JSValue R)) : JSNumber R :=
  values.foldl (fun m v => m.min (v.toNumber B)) .posInf

/-- The call `Math.max(...values)`: `-Infinity` for no argument. -/
def spreadMax (B : Builtins R) (values : List (JSValue R)) : JSNumber R :=
  values.foldl (fun m v => m.max (v.toNumber B)) .negInf

/-- The method `calculateRadius()`. -/
def calculateRadius (E : Env R) (p : BuildingPart R) : Except JSError (JSNumber R) :=
  match referencedNodes p.nodelist p.way.nds with
  | none => .error .typeError
  | some nodes =>
    let lats := nodes.map (fun node => node.2)
    let lons := nodes.map (fun node => node.1)
    let left := spreadMin E.toBuiltins lons
    let bottom := spreadMin E.toBuiltins lats
    let right := spreadMax E.toBuiltins lons
    let top := spreadMax E.toBuiltins lats
    .ok (((right.sub left).min (top.sub bottom)).div (.fin 2))

/-- The assignment `this.options.roof.height = value`, through the reference held in
`this.options.roof`. -/
def writeRoofHeight (p : BuildingPart R) (value : JSValue R) : BuildingPart R :=
  match p.options.roof with
  | none => p
  | some .blank => { p with blankOptions.roof.height := value }
  | some (.parent o) =>
    { p with options.roof := some (.parent { o with roof.height := value }) }

/-- The method `createRoof()`, as far as the part itself is concerned: the state of the
part after the call and the exception that ended it, if any. The meshes it builds from
numbers read out of the options, and the scene, belong to the renderer. Every branch
but "flat" and "gabled" reads `this.options.building.height`. -/
def createRoof (E : Env R) (p : BuildingPart R) : Completion (BuildingPart R) :=
  let needsBuilding : Option JSError :=
    if p.options.building.isNone then some .typeError else none
  match p.optionsRoof with
  | none => { state := p, thrown := some .typeError }
  | some r =>
    if r.shape = .str "flat" then { state := p, thrown := none }
    else if r.shape = .str "dome" then { state := p, thrown := needsBuilding }
    else if r.shape = .str "skillion" then { state := p, thrown := needsBuilding }
    else if r.shape = .str "onion" then
      match calculateRadius E p with
      | .error e => { state := p, thrown := some e }
      | .ok radius =>
        if r.height = .num (.fin 0) then
          { state := writeRoofHeight p (.num radius), thrown := needsBuilding }
        else { state := p, thrown := needsBuilding }
    else if r.shape = .str "gabled" then { state := p, thrown := none }
    else if r.shape = .str "pyramidal" then { state := p, thrown := needsBuilding }
    else { state := p, thrown := none }

/-- The method `getWidth()`. -/
def getWidth (E : Env R) (p : BuildingPart R) : JSValue R :=
  E.getWidth p.shape

/-- The content of an object `this.options`: the objects its four entries refer to, as
far as they are set. -/
structure OptionsObject (R : Type) where
  inherited : OptionSet R
  specified : Option (OptionSet R)
  building : Option (BuildingOptions R)
  roof : Option (RoofOptions R)

/-- The content of `this.options` of a part. -/
def optionsObject (p : BuildingPart R) : OptionsObject R :=
  { inherited := p.deref p.options.inherited
    specified := p.options.specified.map p.deref
    building := p.optionsBuilding
    roof := p.optionsRoof }

/-- The object `getInfo()` returns, for a part and for a building: `type` and `options`
are `none` where the property read gives `undefined`. -/
structure Info (R : Type) where
  id : String
  type : Option String
  options : Option (OptionsObject R)
  parts : List (Info R)

/-- The method `getInfo()` of a part. A `MultiBuildingPart` is taken to answer the same
way. -/
def getInfo (p : BuildingPart R) : Info R :=
  { id := p.id, type := some p.type, options := some p.optionsObject, parts := [] }

/-- The methods of a part that the program can call once the part is built. -/
inductive Operation where
  | createRoof
  | createBuilding
  | render
  | getWidth
  | calculateRadius
  | calculateHeight
  | calculateMinHeight
  | getInfo
deriving DecidableEq, Repr

/-- The exception of a call, if it ended with one. -/
def thrownBy {α : Type} : Except JSError α → Option JSError
  | .error e => some e
  | .ok _ => none

/-- The state of the part after a call of one of its methods, with the exception that
ended the call, if any. Only `createRoof` contains an assignment to a property of the
part; `render()` adds the stored roof to the scene and calls `createBuilding()`. The
calls into `BuildingShapeUtils` and THREE receive the shape, the way or numbers read out
of the options, never the options object. -/
def perform (E : Env R) : Operation → BuildingPart R → Completion (BuildingPart R)
  | .createRoof, p => createRoof E p
  | .createBuilding, p => { state := p, thrown := thrownBy (createBuilding E p) }
  | .render, p => { state := p, thrown := thrownBy (createBuilding E p) }
  | .getWidth, p => { state := p, thrown := none }
  | .calculateRadius, p => { state := p, thrown := thrownBy (calculateRadius E p) }
  | .calculateHeight, p => { state := p, thrown := thrownBy (calculateHeight E p) }
  | .calculateMinHeight, p => { state := p, thrown := none }
  | .getInfo, p => { state := p, thrown := none }

end BuildingPart

/-! ## Roof geometry (`geometries/PyramidGeometry1.js`) -/

namespace JSNumber

variable {R : Type} [LinearOrderedField R]

/-- The comparison `a < b` on numbers; every comparison with `NaN` is false. -/
def lt : JSNumber R → JSNumber R → Bool
  | nan, _ => false
  | _, nan => false
  | fin x, fin y => decide (x < y)
  | negInf, negInf => false
  | negInf, _ => true
  | _, negInf => false
  | posInf, _ => false
  | fin _, posInf => true

/-- The comparison `a <= b` on numbers; every comparison with `NaN` is false. -/
def le : JSNumber R → JSNumber R → Bool
  | nan, _ => false
  | _, nan => false
  | fin x, fin y => decide (x ≤ y)
  | negInf, _ => true
  | _, posInf => true
  | _, _ => false

end JSNumber

/-- A point of a contour (`THREE.Vector2`): its `x` and `y`. -/
abbrev Point (R : Type) := JSNumber R × JSNumber R

namespace ShapeUtils

variable {R : Type} [LinearOrderedField R]

/-- One summand of the loop in `THREE.ShapeUtils.area`:
`contour[p].x * contour[q].y - contour[q].x * contour[p].y`. -/
def cross (p q : Point R) : JSNumber R :=
  (p.1.mul q.2).sub (q.1.mul p.2)

/-- The loop of `THREE.ShapeUtils.area`, with `p` the predecessor of the next point. -/
def areaLoop : Point R → List (Point R) → JSNumber R → JSNumber R
  | _, [], a => a
  | p, q :: rest, a => areaLoop q rest (a.add (cross p q))

/-- The three.js library function `THREE.ShapeUtils.area(contour)`: the loop starts with
the last point as predecessor of the first, and the sum is halved. -/
def area (contour : List (Point R)) : JSNumber R :=
  match contour.getLast? with
  | none => (JSNumber.fin 0).mul (.fin (1 / 2))
  | some last => (areaLoop last contour (.fin 0)).mul (.fin (1 / 2))

/-- The three.js library function `THREE.ShapeUtils.isClockWise(pts)`: `area(pts) < 0`. -/
def isClockWise (pts : List (Point R)) : Bool :=
  (area pts).lt (.fin 0)

end ShapeUtils

namespace PyramidGeometry

variable {R : Type} [LinearOrderedField R]

/-- The `options` argument of the constructor, as `createRoof` passes it. -/
structure Options (R : Type) where
  center : JSValue R × JSValue R
  depth : JSValue R

/-- Lines 16-20: the point list the triangle loop iterates over. -/
def loopPoints (points : List (Point R)) : List (Point R) :=
  let reverse := !ShapeUtils.isClockWise points
  if reverse then points.reverse else points

/-- Lines 21-27: the loop over `i` from `0` to `points.length - 2`, pushing nine
coordinates for the triangle on `points[i]` and `points[i + 1]`. -/
def pushTriangles (options : Options R) (points : List (Point R)) :
    Nat → Nat → List (JSValue R) → List (JSValue R)
  | 0, _, positions => positions
  | steps + 1, i, positions =>
    match points.get? i, points.get? (i + 1) with
    | some point, some next_point =>
      pushTriangles options points steps (i + 1)
        (positions ++
          [.num point.1, .num point.2, .num (.fin 0),
           options.center.1, options.center.2, options.depth,
           .num next_point.1, .num next_point.2, .num (.fin 0)])
    | _, _ => positions

/-- The constructor, up to the value of `positions` handed to the buffer attribute;
`shape.extractPoints().shape` is the outline of the footprint. -/
def positions (shape : Shape R) (options : Options R) : List (JSValue R) :=
  let points := loopPoints shape.points
  pushTriangles options points (points.length - 1) 0 []

end PyramidGeometry

/-! ## The building (`building.js`) -/

/-- The kind of a building: the value of `this.type`. -/
inductive Kind where
  | way
  | multipolygon
  | relation
deriving DecidableEq, Repr

/-- The state of a `Building` object; `home` is `none` while it is the empty array. -/
structure Building (R : Type) where
  id : String
  fullXmlData : Document
  home : Option (JSValue R × JSValue R)
  parts : List (BuildingPart R)
  outerElement : Option (BuildingPart R)
  nodelist : NodeList R
  type : Option Kind

/-- The outcome of a call that may loop: a result, an exception, or no end of the loop
within the given number of steps. -/
inductive Run (α : Type) where
  | done (a : α)
  | throws (e : JSError)
  | diverges

namespace Building

variable {R : Type} [LinearOrderedField R]

/-- The value of an attribute that may be missing: `getAttribute` gives `null` then. -/
def attributeValue : Option String → JSValue R
  | none => .null
  | some s => .str s

/-- The read `nodelist[key]`. -/
def nodeGet (nodelist : NodeList R) (key : String) : Option (JSValue R × JSValue R) :=
  (nodelist.find? (fun entry => entry.1 = key)).map (fun entry => entry.2)

/-- The write `nodelist[key] = value`: an existing key keeps its place. -/
def nodeSet (key : String) (value : JSValue R × JSValue R) : NodeList R → NodeList R
  | [] => [(key, value)]
  | entry :: rest =>
    if entry.1 = key then (key, value) :: rest else entry :: nodeSet key value rest

/-- The static method `buildNodeList(fullXmlData)`. -/
def buildNodeList (doc : Document) : NodeList R :=
  (getElementsByTagName doc "node").foldl
    (fun nodeList node =>
      nodeSet node.id (attributeValue node.lon, attributeValue node.lat) nodeList) []

/-- The function `Math.atan`. -/
def mathAtan (B : Builtins R) : JSNumber R → JSNumber R
  | .nan => .nan
  | .posInf => .fin (B.pi / 2)
  | .negInf => .fin (-(B.pi / 2))
  | .fin x => .fin (B.atan x)

/-- The function `Math.sqrt`. -/
def mathSqrt (B : Builtins R) : JSNumber R → JSNumber R
  | .fin x => if x < 0 then .nan else .fin (B.sqrt x)
  | .posInf => .posInf
  | _ => .nan

/-- The static method `repositionPoint(latLon, home)`. -/
def repositionPoint (B : Builtins R) (latLon home : JSValue R × JSValue R) :
    JSNumber R × JSNumber R :=
  let earth : JSNumber R := .fin (6371 * 1000)
  let toRad : JSNumber R → JSNumber R := fun a => (a.div (.fin 180)).mul (.fin B.pi)
  let sin := JSNumber.liftBounded B.sin
  let cos := JSNumber.liftBounded B.cos
  let phi := (JSNumber.fin 90).sub (latLon.2.toNumber B)
  let theta := (latLon.1.toNumber B).sub (home.1.toNumber B)
  let thetaPrime := toRad (home.2.toNumber B)
  let x := (earth.mul (sin (toRad theta))).mul (sin (toRad phi))
  let y := earth.mul (cos (toRad phi))
  let z := (earth.mul (sin (toRad phi))).mul (cos (toRad theta))
  let abs := mathSqrt B ((z.mul z).add (y.mul y))
  let arg := (mathAtan B (y.div z)).sub thetaPrime
  (x, (sin arg).mul abs)

/-- The method `repositionNodes()`: for every key of the table, in turn, the entry is
replaced by its reprojection. -/
def repositionNodes (B : Builtins R) (home : JSValue R × JSValue R) (nodelist : NodeList R) :
    NodeList R :=
  (nodelist.map (fun entry => entry.1)).foldl
    (fun cur key =>
      match nodeGet cur key with
      | some latLon =>
        nodeSet key
          (.num (repositionPoint B latLon home).1, .num (repositionPoint B latLon home).2) cur
      | none => cur)
    nodelist

/-- Lines 317-326 of `getExtents`: the seed and the loop over the whole node table. -/
def nodeExtents (B : Builtins R) (nodelist : NodeList R) : Extents R :=
  nodelist.foldl
    (fun extents entry =>
      { left := extents.left.min (entry.2.1.toNumber B)
        bottom := extents.bottom.min (entry.2.2.toNumber B)
        right := extents.right.max (entry.2.1.toNumber B)
        top := extents.top.max (entry.2.2.toNumber B) })
    { left := .fin 180, bottom := .fin 90, right := .fin (-180), top := .fin (-90) }

/-- Lines 301-313 of `getExtents`: the loop over the outer members, from index `i` on,
with `extents` the box so far (`none` for the empty array). -/
def outerExtents (E : Env R) (doc : Document) (nodelist : NodeList R) :
    List Member → Nat → Option (Extents R) → Except JSError (Option (Extents R))
  | [], _, extents => .ok extents
  | member :: rest, i, extents =>
    match E.createShape (getElementById doc member.ref) nodelist with
    | .error e => .error e
    | .ok shape =>
      let wayExtents := E.extents shape
      if i = 0 then outerExtents E doc nodelist rest (i + 1) (some wayExtents)
      else
        match extents with
        | some box =>
          outerExtents E doc nodelist rest (i + 1)
            (some
              { left := box.left.min wayExtents.left
                bottom := box.bottom.min wayExtents.bottom
                right := box.right.max wayExtents.right
                top := box.top.max wayExtents.top })
        | none =>
          outerExtents E doc nodelist rest (i + 1)
            (some { left := .nan, bottom := .nan, right := .nan, top := .nan })

/-- The static method `getExtents(id, fullXmlData, nodelist)`; `none` is the empty
array. -/
def getExtents (E : Env R) (id : String) (doc : Document) (nodelist : NodeList R) :
    Except JSError (Option (Extents R)) :=
  match getElementById doc id with
  | none => .error .typeError
  | some xmlElement =>
    let buildingType := toLowerCase xmlElement.tagName
    if buildingType = "way" then
      match E.createShape (some xmlElement) nodelist with
      | .error e => .error e
      | .ok shape => .ok (some (E.extents shape))
    else if buildingType = "relation" then
      match querySelectorK xmlElement "type" with
      | none => .error .typeError
      | some relationType =>
        if relationType.v = "multipolygon" then
          outerExtents E doc nodelist (querySelectorAllMembers xmlElement "outer") 0 none
        else .ok (some (nodeExtents E.toBuiltins nodelist))
    else .ok none

/-- The method `setHome()`. -/
def setHome (E : Env R) (b : Building R) : Except JSError (Building R) :=
  match getExtents E b.id b.fullXmlData b.nodelist with
  | .error e => .error e
  | .ok extents =>
    let at0 : JSValue R := match extents with | some x => .num x.left | none => .undefined
    let at1 : JSValue R := match extents with | some x => .num x.bottom | none => .undefined
    let at2 : JSValue R := match extents with | some x => .num x.right | none => .undefined
    let at3 : JSValue R := match extents with | some x => .num x.top | none => .undefined
    let homeLon := JSValue.over E.toBuiltins (JSValue.plus E.toBuiltins at0 at2) (.num (.fin 2))
    let homeLat := JSValue.over E.toBuiltins (JSValue.plus E.toBuiltins at1 at3) (.num (.fin 2))
    .ok { b with home := some (homeLon, homeLat) }

/-- The elements pushed onto `ways` for an element (lines 208-218 and 244-254): the
targets of its `role="part"` members, in member order, those that do not resolve being
left out. -/
def resolvedParts (doc : Document) (e : Element) : List Element :=
  (querySelectorAllMembers e "part").filterMap (fun m => getElementById doc m.ref)

/-- Whether the `nd` children of a way pass the test of lines 230-242: there is at least
one and the first and the last `ref` are the same. -/
def closedWay (way : Element) : Bool :=
  if way.nds.length > 0 then
    if way.nds.head? ≠ way.nds.getLast? then false else true
  else false

/-- The loop of lines 227-256 over the array `ways`. The list holds the entries from
index `i` on; entries pushed during the loop are added at its end. The first argument
bounds the number of iterations; `none` is returned when it is exhausted. -/
def validateWays (doc : Document) : Nat → List Element → Option Bool
  | _, [] => some true
  | 0, _ :: _ => none
  | fuel + 1, way :: rest =>
    if toLowerCase way.tagName = "way" then
      if closedWay way then validateWays doc fuel rest else some false
    else validateWays doc fuel (rest ++ resolvedParts doc way)

/-- The method `isValidData(xmlData)`, with a bound on the iterations of its loop. -/
def isValidData (doc : Document) (fuel : Nat) (xmlData : Element) : Option Bool :=
  let buildingType := querySelectorK xmlData "building"
  if xmlData.tagName = "relation" then
    validateWays doc fuel (resolvedParts doc xmlData)
  else if buildingType.isNone then some false
  else validateWays doc fuel [xmlData]

/-- Lines 56-62 of the constructor: the value assigned to `this.type`. A root that is
not a way and has no tag with key `type` makes `querySelector` return `null`, on which
`getAttribute` fails. -/
def classify (outerElementXml : Element) : Except JSError Kind :=
  if toLowerCase outerElementXml.tagName = "way" then .ok .way
  else
    match querySelectorK outerElementXml "type" with
    | none => .error .typeError
    | some t => if t.v = "multipolygon" then .ok .multipolygon else .ok .relation

/-- The loop of lines 142-151 of `addParts` over the `role="part"` members; `make` and
`makeMulti` stand for the two constructor calls with their last three arguments. -/
def addMemberParts (doc : Document) (make makeMulti : String → Except JSError (BuildingPart R)) :
    List Member → List (BuildingPart R) → Except JSError (List (BuildingPart R))
  | [], parts => .ok parts
  | member :: rest, parts =>
    match getElementById doc member.ref with
    | none => .error .typeError
    | some part =>
      if toLowerCase part.tagName = "way" then
        match make member.ref with
        | .error e => .error e
        | .ok p => addMemberParts doc make makeMulti rest (parts ++ [p])
      else
        match makeMulti member.ref with
        | .error e => .error e
        | .ok p => addMemberParts doc make makeMulti rest (parts ++ [p])

/-- The loops of lines 155-160 and 163-168 of `addParts`: one part for every listed
element that has a tag with key `building:part`. -/
def addTaggedParts (make : String → Except JSError (BuildingPart R)) :
    List Element → List (BuildingPart R) → Except JSError (List (BuildingPart R))
  | [], parts => .ok parts
  | e :: rest, parts =>
    if (querySelectorK e "building:part").isSome then
      match make e.id with
      | .error err => .error err
      | .ok p => addTaggedParts make rest (parts ++ [p])
    else addTaggedParts make rest parts

/-- The call `new BuildingPart(id, this.fullXmlData, this.nodelist,
this.outerElement.options)` inside `addParts`. Without an outer element the read of
`.options` fails; an options object whose groups are unset fails in the part. -/
def newPart (E : Env R) (b : Building R) (id : String) : Except JSError (BuildingPart R) :=
  match b.outerElement with
  | none => .error .typeError
  | some outer =>
    match outer.optionsView with
    | none => .error .typeError
    | some o => BuildingPart.create E id b.fullXmlData b.nodelist (some o)

/-- The call `new MultiBuildingPart(id, this.fullXmlData, this.nodelist,
this.outerElement.options)` inside `addParts`. -/
def newMultiPart (E : Env R) (b : Building R) (id : String) :
    Except JSError (BuildingPart R) :=
  match b.outerElement with
  | none => .error .typeError
  | some outer =>
    match outer.optionsView with
    | none => .error .typeError
    | some o => BuildingPart.createMulti E id b.fullXmlData b.nodelist (some o)

/-- The method `addParts()`. -/
def addParts (E : Env R) (b : Building R) : Except JSError (Building R) :=
  if b.type = some .relation then
    match getElementById b.fullXmlData b.id with
    | none => .error .typeError
    | some root =>
      match addMemberParts b.fullXmlData (newPart E b) (newMultiPart E b)
          (querySelectorAllMembers root "part") b.parts with
      | .error e => .error e
      | .ok parts => .ok { b with parts := parts }
  else
    match addTaggedParts (newPart E b) (getElementsByTagName b.fullXmlData "way")
        b.parts with
    | .error e => .error e
    | .ok parts =>
      match addTaggedParts (newMultiPart E b)
          (getElementsByTagName b.fullXmlData "relation") parts with
      | .error e => .error e
      | .ok parts => .ok { b with parts := parts }

/-- Lines 67-80 of the constructor: the outer element. `make` and `makeMulti` stand for
the calls `new BuildingPart(·, this.fullXmlData, this.nodelist)` and
`new MultiBuildingPart(·, this.fullXmlData, this.nodelist)`, applied to the id that the
source passes. -/
def makeOuterElementWith (make makeMulti : String → Except JSError (BuildingPart R))
    (id : String) (doc : Document) (outerElementXml : Element) :
    Except JSError (BuildingPart R) :=
  if toLowerCase outerElementXml.tagName = "way" then make id
  else
    match querySelectorK outerElementXml "type" with
    | none => .error .typeError
    | some t =>
      if t.v = "multipolygon" then makeMulti id
      else
        match (querySelectorAllMembers outerElementXml "outline").head? with
        | none => .error .typeError
        | some outlineMember =>
          match getElementById doc outlineMember.ref with
          | none => .error .typeError
          | some outline =>
            if toLowerCase outline.tagName = "way" then make id
            else makeMulti outlineMember.ref

/-- Lines 67-80 of the constructor, with the two constructors of the program. -/
def makeOuterElement (E : Env R) (id : String) (doc : Document) (nodelist : NodeList R)
    (outerElementXml : Element) : Except JSError (BuildingPart R) :=
  makeOuterElementWith (fun i => BuildingPart.create E i doc nodelist none)
    (fun i => BuildingPart.createMulti E i doc nodelist none) id doc outerElementXml

/-- The object as the field initialisers and line 53-54 leave it. -/
def initial (id : String) (doc : Document) : Building R :=
  { id := id, fullXmlData := doc, home := none, parts := [], outerElement := none,
    nodelist := [], type := none }

/-- Lines 64-81 of the constructor: the assembly of a building whose data is valid. -/
def assemble (E : Env R) (b : Building R) (outerElementXml : Element) :
    Except JSError (Building R) :=
  let b := { b with nodelist := buildNodeList b.fullXmlData }
  match setHome E b with
  | .error e => .error e
  | .ok b =>
    let home : JSValue R × JSValue R :=
      match b.home with
      | some h => h
      | none => (.undefined, .undefined)
    let b := { b with nodelist := repositionNodes E.toBuiltins home b.nodelist }
    match makeOuterElement E b.id b.fullXmlData b.nodelist outerElementXml with
    | .error e => .error e
    | .ok outer => addParts E { b with outerElement := some outer }

/-- The constructor `new Building(id, FullXmlData)`, from the parsed document on. The
loop of `isValidData` is run for at most `fuel` iterations. -/
def construct (E : Env R) (fuel : Nat) (id : String) (doc : Document) : Run (Building R) :=
  match getElementById doc id with
  | none => .throws .typeError
  | some outerElementXml =>
    match classify outerElementXml with
    | .error e => .throws e
    | .ok kind =>
      let b : Building R := { (initial id doc : Building R) with type := some kind }
      match isValidData doc fuel outerElementXml with
      | none => .diverges
      | some false => .done b
      | some true =>
        match assemble E b outerElementXml with
        | .error e => .throws e
        | .ok b => .done b

/-- The string the constructor stores in `this.type` (lines 57-61). -/
def kindName : Kind → String
  | .way => "way"
  | .multipolygon => "multipolygon"
  | .relation => "relation"

/-- The method `getInfo()`. The read of `.options` fails when no outer element has been
stored. -/
def getInfo (b : Building R) : Except JSError (BuildingPart.Info R) :=
  let partsInfo : List (BuildingPart.Info R) :=
    b.parts.foldl (fun partsInfo part => partsInfo ++ [part.getInfo]) []
  match b.outerElement with
  | none => .error .typeError
  | some outer =>
    .ok
      { id := b.id, type := b.type.map kindName, options := some outer.optionsObject,
        parts := partsInfo }

end Building

/-! ## Vocabulary of the statements -/

/-- Whether the loop of `isValidData` treats an element as a way. -/
def isWay (e : Element) : Bool := toLowerCase e.tagName = "way"

/-- One step of the `role="part"` membership graph: from an element that is not a way
to the element of the document that the `ref` of one of its members with role "part"
names. -/
def partEdge (doc : Document) (a b : Element) : Prop :=
  isWay a = false ∧ ∃ m ∈ a.members, m.role = "part" ∧ getElementById doc m.ref = some b

/-- The membership graph has no cycle. -/
def Acyclic (doc : Document) : Prop :=
  ∀ e, ¬ Relation.TransGen (partEdge doc) e e

/-- The runtime builtins with the five `Math` members replaced. -/
def Builtins.withMath {R : Type} (B : Builtins R) (sin cos atan sqrt : R → R) (pi : R) :
    Builtins R :=
  { B with sin := sin, cos := cos, atan := atan, sqrt := sqrt, pi := pi }

/-- A finite point as a contour point. -/
def finPoint {R : Type} (p : R × R) : Point R := (.fin p.1, .fin p.2)

/-- Twice the signed area of a closed polygon by the shoelace formula: the sum of
`x_i * y_(i+1) - x_(i+1) * y_i` over its edges, the last edge closing the polygon. It is
positive for a counter-clockwise polygon. -/
def shoelace {R : Type} [LinearOrderedField R] : List (R × R) → R
  | [] => 0
  | p :: rest =>
    (List.zipWith (fun a b => a.1 * b.2 - b.1 * a.2) (p :: rest) (rest ++ [p])).sum

/-! ## A concrete environment and concrete documents -/

/-- The value of a string of decimal digits, most significant digit first. -/
def digitsValue : List Char → Nat → Option Nat
  | [], acc => some acc
  | c :: cs, acc =>
    if c.isDigit then digitsValue cs (10 * acc + (c.toNat - 48)) else none

/-- A sample of the runtime builtins over the rationals. Strings of decimal digits
convert to their value and every other string to `NaN`; the trigonometric members are
first-order stand-ins. -/
def testBuiltins : Builtins ℚ where
  parseFloat := fun s =>
    match s.data with
    | [] => .nan
    | c :: cs =>
      match digitsValue (c :: cs) 0 with
      | some n => .fin n
      | none => .nan
  stringToNumber := fun s =>
    match digitsValue s.data 0 with
    | some n => .fin n
    | none => .nan
  numberToString := fun n =>
    match n with
    | .nan => "NaN"
    | .posInf => "Infinity"
    | .negInf => "-Infinity"
    | .fin x => if x.den = 1 then toString x.num else "NaN"
  sin := fun x => x
  cos := fun _ => 1
  atan := fun x => x
  sqrt := fun x => x
  pi := 3

/-- A sample of the polygon library: the footprint of a way has the table entries of its
`nd` references as points, and its extents are their bounding box. No `defaultOptions`
is in scope of `setOptions`. -/
def testEnv : Env ℚ where
  toBuiltins := testBuiltins
  createShape := fun way nodelist =>
    match way with
    | none => .error .typeError
    | some w =>
      .ok
        { points :=
            w.nds.filterMap (fun ref =>
              (Building.nodeGet nodelist ref).map (fun c =>
                (c.1.toNumber testBuiltins, c.2.toNumber testBuiltins)))
          holes := [] }
  extents := fun shape =>
    match shape.points with
    | [] => { left := .nan, bottom := .nan, right := .nan, top := .nan }
    | p :: rest =>
      rest.foldl
        (fun box q =>
          { left := box.left.min q.1, bottom := box.bottom.min q.2,
            right := box.right.max q.1, top := box.top.max q.2 })
        { left := p.1, bottom := p.2, right := p.1, top := p.2 }
  calulateRadius := fun _ => .num (.fin 1)
  center := fun _ => (.num (.fin 0), .num (.fin 0))
  getWidth := fun _ => .num (.fin 1)
  createMultiShape := fun way _ _ =>
    match way with
    | none => .error .typeError
    | some _ => .ok { points := [], holes := [] }
  defaultOptionsHeight := none
  flatAlternative := .undefined
  radiusAlternative := .undefined

/-- A `tag` element. -/
def tag (k v : String) : Tag := { k := k, v := v }

/-- A `node` element. -/
def node (id lon lat : String) : Element :=
  { tagName := "node", id := id, tags := [], nds := [], members := [],
    lon := some lon, lat := some lat }

/-- A `way` element. -/
def way (id : String) (tags : List Tag) (nds : List String) : Element :=
  { tagName := "way", id := id, tags := tags, nds := nds, members := [],
    lon := none, lat := none }

/-- A `relation` element. -/
def relation (id : String) (tags : List Tag) (members : List Member) : Element :=
  { tagName := "relation", id := id, tags := tags, nds := [], members := members,
    lon := none, lat := none }

/-- A part in the state the constructor hands to `setOptions`. -/
def freshPart (w : Element) (inherited : OptionsRef ℚ) : BuildingPart ℚ :=
  { kind := .buildingPart, id := w.id, way := w, shape := { points := [], holes := [] },
    nodelist := [], type := "way", blankOptions := blankOptions,
    options := { inherited := inherited, specified := none, building := none, roof := none } }

/-- Four nodes at the corners of a square. -/
def squareNodes : List Element :=
  [node "1" "0" "0", node "2" "2" "0", node "3" "2" "2", node "4" "0" "2"]

/-- The result of a run that ended normally. -/
def Run.result {α : Type} : Run α → Option α
  | .done a => some a
  | _ => none

/-- The exception of a run that ended with one. -/
def Run.thrown {α : Type} : Run α → Option JSError
  | .throws e => some e
  | _ => none

/-- The options of a parent whose building is 10 high on a base of 1, with a roof of 2. -/
def tallParent : OptionSet ℚ :=
  { building :=
      { (blankOptions : OptionSet ℚ).building with
        height := .num (.fin 10), minHeight := .num (.fin 1) }
    roof := { (blankOptions : OptionSet ℚ).roof with height := .num (.fin 2) } }

/-- A square way tagged `building=yes`, `building:levels=3`, with its nodes. -/
def levelsDoc : Document :=
  squareNodes ++
    [way "10" [tag "building" "yes", tag "building:levels" "3"] ["1", "2", "3", "4", "1"]]

/-- Every way that can be reached from an entry of the list along part members is
closed. -/
def AllClosed (doc : Document) (queue : List Element) : Prop :=
  ∀ q ∈ queue, ∀ w, Relation.ReflTransGen (partEdge doc) q w → isWay w = true →
    Building.closedWay w = true

/-- A `member` element. -/
def member (type ref role : String) : Member := { type := type, ref := ref, role := role }

/-- A building relation with a way part, a nested relation part and a part reference
that does not resolve; the nested relation has one way part. -/
def nestedDoc : Document :=
  [ relation "1" [tag "type" "building"]
      [member "way" "2" "part", member "relation" "3" "part", member "way" "99" "part"],
    way "2" [] ["1", "2", "3", "1"],
    relation "3" [tag "type" "building"] [member "way" "4" "part"],
    way "4" [] ["3", "4", "1", "3"] ]

/-- The root of `nestedDoc`. -/
def nestedRoot : Element :=
  relation "1" [tag "type" "building"]
    [member "way" "2" "part", member "relation" "3" "part", member "way" "99" "part"]

/-- A way tagged as a building whose ring is not closed. -/
def openWayDoc : Document :=
  squareNodes ++ [way "10" [tag "building" "yes"] ["1", "2", "3", "4"]]

/-- A relation without a tag of key `type`. -/
def untypedDoc : Document :=
  [ relation "1" [tag "building" "yes"] [member "way" "2" "part"],
    way "2" [] ["1", "2", "3", "1"] ]

/-- A building relation with an outline, a way part and a part reference that does not
resolve. -/
def danglingDoc : Document :=
  squareNodes ++
    [ relation "20" [tag "type" "building"]
        [member "way" "10" "outline", member "way" "11" "part", member "way" "99" "part"],
      way "10" [tag "building" "yes"] ["1", "2", "3", "4", "1"],
      way "11" [] ["1", "2", "3", "1"] ]

/-- A bounding box with finite sides. -/
structure Box (R : Type) where
  left : R
  bottom : R
  right : R
  top : R
deriving DecidableEq, Repr

/-- A finite box as extents. -/
def finBox {R : Type} (q : Box R) : Extents R :=
  { left := .fin q.left, bottom := .fin q.bottom, right := .fin q.right, top := .fin q.top }

/-- The componentwise union of two boxes. -/
def Box.union {R : Type} [LinearOrderedField R] (a b : Box R) : Box R :=
  { left := min a.left b.left, bottom := min a.bottom b.bottom,
    right := max a.right b.right, top := max a.top b.top }

/-- The footprint extents of the element a member refers to, when its footprint can be
built. -/
def memberBox {R : Type} (E : Env R) (doc : Document) (nodelist : NodeList R) (m : Member) :
    Option (Extents R) :=
  match E.createShape (getElementById doc m.ref) nodelist with
  | .ok shape => some (E.extents shape)
  | .error _ => none

/-- A multipolygon relation with two outer rings, with its nodes. -/
def multiDoc : Document :=
  squareNodes ++
    [ node "5" "1" "1", node "6" "5" "1", node "7" "5" "3",
      relation "30" [tag "type" "multipolygon"]
        [member "way" "11" "outer", member "way" "12" "outer"],
      way "11" [] ["1", "2", "3", "4", "1"],
      way "12" [] ["5", "6", "7", "5"] ]

/-- A building relation whose outline is the square, in a document that also holds a
node that nothing under the relation refers to. -/
def strayDoc : Document :=
  squareNodes ++
    [ node "9" "50" "60",
      relation "20" [tag "type" "building"] [member "way" "10" "outline"],
      way "10" [tag "building" "yes"] ["1", "2", "3", "4", "1"] ]

/-- The box with the given rational sides. -/
def qbox (left bottom right top : ℚ) : Box ℚ :=
  { left := left, bottom := bottom, right := right, top := top }

/-- Builtins for purely numeric arguments: every string converts to `NaN`; the `Math`
members are to be supplied with `Builtins.withMath`. -/
def numericBuiltins (R : Type) [LinearOrderedField R] : Builtins R where
  parseFloat := fun _ => .nan
  stringToNumber := fun _ => .nan
  numberToString := fun _ => "NaN"
  sin := fun x => x
  cos := fun _ => 1
  atan := fun x => x
  sqrt := fun x => x
  pi := 3

/-- A multipolygon relation with an outer ring and a member of role `part`. -/
def multiPartDoc : Document :=
  squareNodes ++
    [ relation "30" [tag "type" "multipolygon"]
        [member "way" "11" "outer", member "way" "12" "part"],
      way "11" [] ["1", "2", "3", "4", "1"],
      way "12" [] ["1", "2", "3", "1"] ]

/-- A building relation with an outline and two parts, a way and a relation. -/
def partsDoc : Document :=
  squareNodes ++
    [ relation "20" [tag "type" "building"]
        [member "way" "10" "outline", member "way" "11" "part",
         member "relation" "12" "part"],
      way "10" [tag "building" "yes"] ["1", "2", "3", "4", "1"],
      way "11" [tag "roof:shape" "dome"] ["1", "2", "3", "1"],
      relation "12" [tag "type" "multipolygon"] [member "way" "11" "outer"] ]

/-- A building way, two ways and a relation tagged `building:part`, and a way without
that tag. -/
def scanDoc : Document :=
  squareNodes ++
    [ way "10" [tag "building" "yes"] ["1", "2", "3", "4", "1"],
      way "11" [tag "building:part" "yes"] ["1", "2", "3", "1"],
      way "12" [] ["1", "2", "4", "1"],
      relation "13" [tag "type" "multipolygon", tag "building:part" "yes"]
        [member "way" "12" "outer"],
      way "14" [tag "building:part" "roof"] ["2", "3", "4", "2"] ]

/-- The building of `partsDoc` as `addParts` would find it, up to the node table, had
the outer element been stored: its outer element is the part that lines 53-62 build on
an object that has an `options` object. -/
def partsBuilding : Building ℚ :=
  { id := "20", fullXmlData := partsDoc, home := none, parts := [],
    outerElement := (BuildingPart.initialise testEnv "20" partsDoc [] none).toOption,
    nodelist := [], type := some .relation }

/-- The building of `scanDoc` as `addParts` would find it, up to the node table, had the
outer element been stored. -/
def scanBuilding : Building ℚ :=
  { id := "10", fullXmlData := scanDoc, home := none, parts := [],
    outerElement := (BuildingPart.initialise testEnv "10" scanDoc [] none).toOption,
    nodelist := [], type := some .way }

/-- The root of `partsDoc`. -/
def nestedRootOfParts : Element :=
  relation "20" [tag "type" "building"]
    [member "way" "10" "outline", member "way" "11" "part", member "relation" "12" "part"]

/-- The sum of `x_i * y_(i+1) - x_(i+1) * y_i` along the path that starts at `p` and runs
through the list. -/
def pathCross {R : Type} [LinearOrderedField R] : R × R → List (R × R) → R
  | _, [] => 0
  | p, q :: rest => (p.1 * q.2 - q.1 * p.2) + pathCross q rest

/-- The unit square, counter-clockwise. -/
def unitSquare : List (ℚ × ℚ) := [(0, 0), (1, 0), (1, 1), (0, 1)]

/-- The sum of `x_i * y_(i+1) - x_(i+1) * y_i` along an open path. -/
def pathSum {R : Type} [LinearOrderedField R] : List (R × R) → R
  | [] => 0
  | p :: rest => pathCross p rest

/-- The square with corners (0,0) and (2,2) as a closed ring, counter-clockwise. -/
def closedSquare : List (ℚ × ℚ) := [(0, 0), (2, 0), (2, 2), (0, 2), (0, 0)]

/-- The footprint of the closed square. -/
def squareShape : Shape ℚ := { points := closedSquare.map finPoint, holes := [] }

/-- Pyramid options with the centre of the square and a roof height of 3. -/
def apexOptions : PyramidGeometry.Options ℚ :=
  { center := (.num (.fin 1), .num (.fin 1)), depth := .num (.fin 3) }

/-- A part tagged with a height of 10, a base of 2 and a flat roof of height 0. -/
def flatPart : BuildingPart ℚ :=
  freshPart
    (way "5"
      [tag "height" "10", tag "min_height" "2", tag "roof:shape" "flat",
        tag "roof:height" "0"] [])
    .blank

/-- A node table with the corners of a square of side 4, as numbers. -/
def wideNodes : NodeList ℚ :=
  [ ("1", (.num (.fin 0), .num (.fin 0))), ("2", (.num (.fin 4), .num (.fin 0))),
    ("3", (.num (.fin 4), .num (.fin 4))), ("4", (.num (.fin 0), .num (.fin 4))) ]

/-- The state `setOptions` leaves for a square way of side 4 with an onion roof whose
height is tagged as 0, built without defaults. -/
def onionPart : BuildingPart ℚ :=
  (BuildingPart.setOptions testEnv
    { freshPart (way "7" [tag "roof:shape" "onion", tag "roof:height" "0"]
        ["1", "2", "3", "4", "1"]) .blank with nodelist := wideNodes }).state

/-- A building state with an outer element and two parts, each in the state `setOptions`
leaves. -/
def infoBuilding : Building ℚ :=
  { id := "20", fullXmlData := partsDoc, home := none,
    parts :=
      [ (BuildingPart.setOptions testEnv
          (freshPart (way "11" [tag "roof:shape" "dome"] ["1", "2", "3", "1"])
            (.parent tallParent))).state,
        (BuildingPart.setOptions testEnv
          (freshPart (way "14" [tag "height" "7"] ["2", "3", "4", "2"])
            (.parent tallParent))).state ],
    outerElement :=
      some (BuildingPart.setOptions testEnv
        (freshPart (way "10" [tag "building" "yes"] ["1", "2", "3", "4", "1"]) .blank)).state,
    nodelist := [], type := some .relation }

/-- The triangle with the corners (0,0), (4,0) and (0,4) as a closed way. -/
def triangleDoc : Document :=
  [way "8" [tag "building" "yes"] ["1", "2", "4", "1"]]

/-- The closed half-planes to the left of the edges of a ring: for a convex ring that
runs counter-clockwise, the points of the polygon. -/
def leftOfEdges {R : Type} [LinearOrderedField R] : List (R × R) → R × R → Prop
  | a :: b :: rest, q =>
    0 ≤ (b.1 - a.1) * (q.2 - a.2) - (b.2 - a.2) * (q.1 - a.1) ∧ leftOfEdges (b :: rest) q
  | _, _ => True

/-- A relation that lists itself as a part. -/
def selfRoot : Element :=
  relation "1" [tag "type" "building"] [member "relation" "1" "part"]

/-- A document that holds only the relation that lists itself as a part. -/
def selfDoc : Document := [selfRoot]

/-- A building relation whose outline is a multipolygon relation. -/
def outlineRelationDoc : Document :=
  squareNodes ++
    [ relation "20" [tag "type" "building"] [member "relation" "12" "outline"],
      relation "12" [tag "type" "multipolygon"] [member "way" "10" "outer"],
      way "10" [] ["1", "2", "3", "4", "1"] ]

/-! # Properties -/

/-! ## Option resolution (`setOptions`) -/

section OptionResolution

variable {R : Type} [LinearOrderedField R]

open BuildingPart

/-- After `setOptions`, `this.options.roof` is the `roof` group of `blankOptions`. -/
theorem setOptions_roof (E : Env R) (p : BuildingPart R) :
    (setOptions E p).state.optionsRoof = some (setOptions E p).state.blankOptions.roof := by
  simp [setOptions, optionsRoof, deref]

/-- After `setOptions`, `this.options.building` is the `building` group of
`blankOptions`. -/
theorem setOptions_building (E : Env R) (p : BuildingPart R) :
    (setOptions E p).state.optionsBuilding =
      some (setOptions E p).state.blankOptions.building := by
  simp [setOptions, optionsBuilding, deref]

/-- What `setOptions` leaves in the fourteen entries that are not lengths: the tag value
if the tag is there, else the inherited value if there is one, else the default. -/
theorem setOptions_plain_entries (E : Env R) (p : BuildingPart R) (o : OptionSet R)
    (h : p.options.inherited = .parent o) :
    let b := (setOptions E p).state.blankOptions
    let attr : String → JSValue R := getAttribute p.way
    b.building.colour = (attr "colour").nullish o.building.colour ∧
    b.building.ele = ((attr "ele").nullish o.building.ele).nullish (.num (.fin 0)) ∧
    b.building.levels = (attr "building:levels").nullish o.building.levels ∧
    b.building.levelsUnderground =
      (attr "building:levels:underground").nullish o.building.levelsUnderground ∧
    b.building.material = (attr "building:material").nullish o.building.material ∧
    b.building.minLevel = (attr "building:min_level").nullish o.building.minLevel ∧
    b.building.walls = (attr "walls").nullish o.building.walls ∧
    b.roof.angle = (attr "roof:angle").nullish o.roof.angle ∧
    b.roof.colour = (attr "roof:colour").nullish o.roof.colour ∧
    b.roof.direction = (attr "roof:direction").nullish o.roof.direction ∧
    b.roof.levels = (attr "roof:levels").nullish o.roof.levels ∧
    b.roof.material = (attr "roof:material").nullish o.roof.material ∧
    b.roof.orientation =
      ((attr "roof:orientation").nullish o.roof.orientation).nullish (.str "along") ∧
    b.roof.shape = ((attr "roof:shape").nullish o.roof.shape).nullish (.str "flat") := by
  simp [setOptions, writeCalculated, writeSpecified, runAssignments,
    calculatedAssignments, specifiedAssignments, inheritedView, h]

/-- The three length entries after `setOptions`: each is `normalizeLength` of the tag
value, whatever is inherited; without the tag that is `NaN`. -/
theorem setOptions_length_entries (E : Env R) (p : BuildingPart R) :
    let b := (setOptions E p).state.blankOptions
    let attr : String → JSValue R := getAttribute p.way
    b.building.height = .num (normalizeLength E (attr "height")) ∧
    b.building.minHeight = .num (normalizeLength E (attr "min_height")) ∧
    b.roof.height = .num (normalizeLength E (attr "roof:height")) := by
  cases h : p.options.inherited <;>
  simp [setOptions, writeCalculated, writeSpecified, runAssignments,
    calculatedAssignments, specifiedAssignments, inheritedView, h, roofHeightChain,
    JSValue.nullish]

/-- C1: `setOptions` resolves `roof.shape` to the value of the part's own `roof:shape`
tag when it has one, otherwise to the inherited `roof.shape` when the inherited option
set has one (the part's own blank object, inherited by a part built without defaults,
has none), otherwise to "flat". -/
theorem C1_roof_shape_precedence (E : Env R) (p : BuildingPart R) :
    (setOptions E p).state.optionsRoof.map (fun r => r.shape) =
      some
        (match querySelectorK p.way "roof:shape" with
        | some t => .str t.v
        | none =>
          match p.options.inherited with
          | .parent o => if o.roof.shape.isNullish then .str "flat" else o.roof.shape
          | .blank => .str "flat") := by
  cases h : p.options.inherited <;> cases ht : querySelectorK p.way "roof:shape" <;>
  simp [setOptions, optionsRoof, deref, writeCalculated, writeSpecified, runAssignments,
    calculatedAssignments, specifiedAssignments, inheritedView, h, getAttribute, ht,
    JSValue.nullish]
  rename_i o
  cases hs : o.roof.shape <;> simp [JSValue.isNullish]

/-- C2, at a failing input: a part without tags whose parent has `building.height` 10,
`building.minHeight` 1 and `roof.height` 2 is left with `NaN` in all three entries, not
with the inherited values; `setOptions` ends normally. -/
theorem C2_inherited_lengths_lost :
    (setOptions testEnv (freshPart (way "5" [] []) (.parent tallParent))).state.optionsView.map
      (fun o => (o.building.height, o.building.minHeight, o.roof.height)) =
      some (.num .nan, .num .nan, .num .nan) ∧
    (setOptions testEnv (freshPart (way "5" [] []) (.parent tallParent))).thrown = none := by
  decide

/-- C3, at a failing input: a part with no tags and nothing inherited, whose roof shape
resolves to "flat", is left with `roof.height` `NaN`, not 0. -/
theorem C3_flat_roof_height_nan :
    (setOptions testEnv (freshPart (way "5" [] []) .blank)).state.optionsRoof.map
      (fun r => (r.shape, r.height)) = some (.str "flat", .num .nan) := by
  decide

/-- C4, at a failing input: the part that lines 53-62 of the constructor build from a
way tagged `building=yes`, `building:levels=3` has `building.levels` "3" and
`building.height` `NaN`, not 9; the method `calculateHeight`, which `setOptions` does not
call, gives `NaN` as well. -/
theorem C4_levels_height_nan :
    (match BuildingPart.initialise testEnv "10" levelsDoc (Building.buildNodeList levelsDoc)
        none with
      | .ok p =>
        p.optionsBuilding.map (fun b => (b.levels, b.height, (calculateHeight testEnv p).toOption))
      | .error _ => none) = some (.str "3", .num .nan, some .nan) := by
  decide

end OptionResolution

/-! ## Validation and classification (`isValidData`, constructor) -/

section PartGraph

open Building

theorem mem_of_getElementById {doc : Document} {id : String} {e : Element}
    (h : getElementById doc id = some e) : e ∈ doc := by
  unfold getElementById at h
  exact List.mem_of_find?_eq_some h

theorem mem_of_mem_resolvedParts {doc : Document} {a b : Element}
    (h : b ∈ resolvedParts doc a) : b ∈ doc := by
  unfold resolvedParts at h
  rw [List.mem_filterMap] at h
  obtain ⟨m, _, hm⟩ := h
  exact mem_of_getElementById hm

/-- The elements `isValidData` pushes for an element are the targets of its members of
role "part" that resolve. -/
theorem mem_resolvedParts_iff {doc : Document} {a b : Element} :
    b ∈ resolvedParts doc a ↔
      ∃ m ∈ a.members, m.role = "part" ∧ getElementById doc m.ref = some b := by
  unfold resolvedParts querySelectorAllMembers
  rw [List.mem_filterMap]
  constructor
  · rintro ⟨m, hm, hb⟩
    rw [List.mem_filter] at hm
    exact ⟨m, hm.1, by simpa using hm.2, hb⟩
  · rintro ⟨m, hm, hr, hb⟩
    exact ⟨m, List.mem_filter.2 ⟨hm, by simpa using hr⟩, hb⟩

/-- The edges of the membership graph out of an element that is not a way lead to the
elements `isValidData` pushes for it. -/
theorem partEdge_iff {doc : Document} {a b : Element} :
    partEdge doc a b ↔ isWay a = false ∧ b ∈ resolvedParts doc a := by
  unfold partEdge
  rw [mem_resolvedParts_iff]

theorem partEdge_target_mem {doc : Document} {a b : Element} (h : partEdge doc a b) :
    b ∈ doc := mem_of_mem_resolvedParts (partEdge_iff.1 h).2

/-- In a document without membership cycle every element is accessible for the
reversed edge relation: descending along part members ends. -/
theorem acc_of_acyclic {doc : Document} (hac : Acyclic doc) (a : Element) :
    Acc (fun b a => partEdge doc a b) a := by
  classical
  let S := { e : Element // e ∈ doc }
  let rS : S → S → Prop := fun b a => Relation.TransGen (partEdge doc) a.1 b.1
  haveI : IsTrans S rS := ⟨fun _ _ _ hab hbc => Relation.TransGen.trans hbc hab⟩
  haveI : IsIrrefl S rS := ⟨fun s hs => hac s.1 hs⟩
  have hfin : Finite S := by
    have : Finite { e : Element // e ∈ doc.toFinset } := Finite.of_fintype _
    exact Finite.of_equiv { e : Element // e ∈ doc.toFinset }
      (Equiv.subtypeEquivRight (fun e => by simp))
  have hwf : WellFounded rS := Finite.wellFounded_of_trans_of_irrefl rS
  have hS : ∀ s : S, Acc (fun b a => partEdge doc a b) s.1 := by
    intro s
    induction s using hwf.induction with
    | _ s ih =>
      refine Acc.intro _ (fun b hb => ?_)
      exact ih ⟨b, partEdge_target_mem hb⟩ (Relation.TransGen.single hb)
  exact Acc.intro _ (fun b hb => hS ⟨b, partEdge_target_mem hb⟩)

theorem wellFounded_of_acyclic {doc : Document} (hac : Acyclic doc) :
    WellFounded (fun b a => partEdge doc a b) :=
  ⟨acc_of_acyclic hac⟩

theorem allClosed_way_cons {doc : Document} {e : Element} {rest : List Element}
    (he : isWay e = true) :
    AllClosed doc (e :: rest) ↔ closedWay e = true ∧ AllClosed doc rest := by
  constructor
  · intro h
    refine ⟨h e (List.mem_cons_self _ _) e Relation.ReflTransGen.refl he, ?_⟩
    intro q hq w hw
    exact h q (List.mem_cons_of_mem _ hq) w hw
  · rintro ⟨hc, h⟩ q hq w hw hway
    rcases List.mem_cons.1 hq with rfl | hq
    · rcases Relation.ReflTransGen.cases_head hw with rfl | ⟨c, hqc, _⟩
      · exact hc
      · rw [hqc.1] at he; cases he
    · exact h q hq w hw hway

theorem allClosed_other_cons {doc : Document} {e : Element} {rest : List Element}
    (he : isWay e = false) :
    AllClosed doc (e :: rest) ↔ AllClosed doc (rest ++ resolvedParts doc e) := by
  constructor
  · intro h q hq w hw hway
    rcases List.mem_append.1 hq with hq | hq
    · exact h q (List.mem_cons_of_mem _ hq) w hw hway
    · exact h e (List.mem_cons_self _ _) w
        (Relation.ReflTransGen.head (partEdge_iff.2 ⟨he, hq⟩) hw) hway
  · intro h q hq w hw hway
    rcases List.mem_cons.1 hq with rfl | hq
    · rcases Relation.ReflTransGen.cases_head hw with rfl | ⟨c, hqc, hcw⟩
      · rw [he] at hway; cases hway
      · exact h c (List.mem_append_right _ (partEdge_iff.1 hqc).2) w hcw hway
    · exact h q (List.mem_append_left _ hq) w hw hway

/-- On a document without membership cycle the loop of `isValidData` ends, whatever the
array holds, and tells whether every way reachable from it is closed. -/
theorem validateWays_total {doc : Document} (hac : Acyclic doc) (queue : List Element) :
    ∃ (N : Nat) (b : Bool), (∀ fuel, N ≤ fuel → validateWays doc fuel queue = some b) ∧
      (b = true ↔ AllClosed doc queue) := by
  have hwf := (wellFounded_of_acyclic hac).cutExpand
  suffices h : ∀ (m : Multiset Element) (queue : List Element), (queue : Multiset Element) = m →
      ∃ (N : Nat) (b : Bool), (∀ fuel, N ≤ fuel → validateWays doc fuel queue = some b) ∧
        (b = true ↔ AllClosed doc queue) from h _ queue rfl
  intro m
  induction m using hwf.induction with
  | _ m ih =>
    intro queue hq
    subst hq
    cases queue with
    | nil =>
      refine ⟨0, true, fun fuel _ => by cases fuel <;> rfl, ?_⟩
      simp [AllClosed]
    | cons e rest =>
      cases he : isWay e with
      | true =>
        have he' : toLowerCase e.tagName = "way" := by simpa [isWay] using he
        cases hc : closedWay e with
        | false =>
          refine ⟨1, false, ?_, ?_⟩
          · intro fuel hf
            obtain ⟨k, rfl⟩ : ∃ k, fuel = k + 1 := ⟨fuel - 1, by omega⟩
            simp [validateWays, he', hc]
          · rw [allClosed_way_cons he]
            simp [hc]
        | true =>
          have hcut : Relation.CutExpand (fun b a => partEdge doc a b)
              ((rest : List Element) : Multiset Element) ((e :: rest : List Element) : Multiset Element) := by
            refine ⟨0, e, by simp, ?_⟩
            rw [add_zero, ← Multiset.cons_coe, add_comm, Multiset.singleton_add]
          obtain ⟨N, b, hN, hb⟩ := ih _ hcut rest rfl
          refine ⟨N + 1, b, ?_, ?_⟩
          · intro fuel hf
            obtain ⟨k, rfl⟩ : ∃ k, fuel = k + 1 := ⟨fuel - 1, by omega⟩
            simp [validateWays, he', hc]
            exact hN k (by omega)
          · rw [allClosed_way_cons he, hb]
            simp [hc]
      | false =>
        have he' : ¬ toLowerCase e.tagName = "way" := by simpa [isWay] using he
        have hcut : Relation.CutExpand (fun b a => partEdge doc a b)
            ((rest ++ resolvedParts doc e : List Element) : Multiset Element)
            ((e :: rest : List Element) : Multiset Element) := by
          refine ⟨(resolvedParts doc e : Multiset Element), e, ?_, ?_⟩
          · intro c hc
            exact partEdge_iff.2 ⟨he, by simpa using hc⟩
          · simp [← Multiset.cons_coe, ← Multiset.coe_add, add_comm, add_left_comm, add_assoc]
        obtain ⟨N, b, hN, hb⟩ := ih _ hcut _ rfl
        refine ⟨N + 1, b, ?_, ?_⟩
        · intro fuel hf
          obtain ⟨k, rfl⟩ : ∃ k, fuel = k + 1 := ⟨fuel - 1, by omega⟩
          simp [validateWays, he']
          exact hN k (by omega)
        · rw [allClosed_other_cons he, hb]


/-- A document whose part members descend along a rank has no membership cycle. -/
theorem acyclic_of_rank (doc : Document) (rank : Element → Nat)
    (h : ∀ a ∈ doc, ∀ b ∈ resolvedParts doc a, isWay a = false → rank b < rank a) :
    Acyclic doc := by
  intro e he
  obtain ⟨b, heb, hbe⟩ := Relation.TransGen.head'_iff.1 he
  have key : ∀ x y, Relation.ReflTransGen (partEdge doc) x y → x ∈ doc →
      y ∈ doc ∧ rank y ≤ rank x := by
    intro x y hxy hx
    induction hxy with
    | refl => exact ⟨hx, le_refl _⟩
    | tail _ hcy ih =>
      exact ⟨partEdge_target_mem hcy,
        le_of_lt (lt_of_lt_of_le (h _ ih.1 _ (partEdge_iff.1 hcy).2 hcy.1) ih.2)⟩
  have hb := key b e hbe (partEdge_target_mem heb)
  have := h e hb.1 b (partEdge_iff.1 heb).2 heb.1
  omega

theorem closedWay_iff (w : Element) :
    closedWay w = true ↔ w.nds ≠ [] ∧ w.nds.head? = w.nds.getLast? := by
  unfold closedWay
  cases hn : w.nds with
  | nil => simp
  | cons a l =>
    by_cases hc : some a = (a :: l).getLast?
    · simp [hc]
    · simp [hc]

/-- C5: for a root element that is a way, `isValidData` returns true if and only if the
way has a tag with key "building", has at least one `nd`, and the `ref` of its first
`nd` equals that of its last; the loop needs a single iteration. -/
theorem C5_way_valid_iff (doc : Document) (fuel : Nat) (w : Element)
    (h : w.tagName = "way") :
    isValidData doc (fuel + 1) w =
      some (decide ((querySelectorK w "building").isSome = true ∧ w.nds ≠ [] ∧
        w.nds.head? = w.nds.getLast?)) := by
  have hrel : ¬ (w.tagName = "relation") := by rw [h]; decide
  have hway : toLowerCase w.tagName = "way" := by rw [h]; decide
  cases hb : querySelectorK w "building" with
  | none => simp [isValidData, hrel, hb]
  | some t =>
    cases hn : w.nds with
    | nil => simp [isValidData, hrel, hb, validateWays, hway, closedWay, hn]
    | cons a l =>
      by_cases hc : some a = (a :: l).getLast?
      · simp [isValidData, hrel, hb, validateWays, hway, closedWay, hn, hc]
      · simp [isValidData, hrel, hb, validateWays, hway, closedWay, hn, hc]

/-- C5 at three ways tagged `building=yes`: a closed ring is accepted, a ring whose
first and last references differ is rejected, and so is a way without `nd`. -/
theorem C5_way_valid_iff_witness :
    isValidData [] 1 (way "1" [tag "building" "yes"] ["1", "2", "3", "1"]) = some true ∧
    isValidData [] 1 (way "1" [tag "building" "yes"] ["1", "2", "3"]) = some false ∧
    isValidData [] 1 (way "1" [tag "building" "yes"] []) = some false :=
  ⟨by rw [C5_way_valid_iff [] 0 _ rfl]; decide,
   by rw [C5_way_valid_iff [] 0 _ rfl]; decide,
   by rw [C5_way_valid_iff [] 0 _ rfl]; decide⟩

/-- C6: for a root element that is a relation, in a document whose `role="part"`
membership graph has no cycle, `isValidData` returns (for every sufficient bound on the
iterations of its loop), and it returns true if and only if every way reachable from the
root along resolvable part members, through the members that are not ways, has at least
one `nd` and equal first and last `nd` references. Members that do not resolve are not
edges of the graph and have no influence. -/
theorem C6_relation_valid_iff (doc : Document) (root : Element)
    (hroot : root.tagName = "relation") (hac : Acyclic doc) :
    ∃ (N : Nat) (b : Bool), (∀ fuel, N ≤ fuel → isValidData doc fuel root = some b) ∧
      (b = true ↔ ∀ w, Relation.TransGen (partEdge doc) root w → isWay w = true →
        w.nds ≠ [] ∧ w.nds.head? = w.nds.getLast?) := by
  obtain ⟨N, b, hN, hb⟩ := validateWays_total hac (resolvedParts doc root)
  have hnot : isWay root = false := by
    unfold isWay; rw [hroot]; decide
  refine ⟨N, b, ?_, ?_⟩
  · intro fuel hf
    simp [isValidData, hroot, hN fuel hf]
  · rw [hb]
    constructor
    · intro h w hw hway
      obtain ⟨c, hrc, hcw⟩ := Relation.TransGen.head'_iff.1 hw
      exact (closedWay_iff w).1 (h c (partEdge_iff.1 hrc).2 w hcw hway)
    · intro h q hq w hw hway
      exact (closedWay_iff w).2
        (h w (Relation.TransGen.head'_iff.2 ⟨q, partEdge_iff.2 ⟨hnot, hq⟩, hw⟩) hway)

/-- C6 at a relation with a way part, a nested relation part and a dangling part
reference: the call returns, and it returns true since both reachable ways are closed. -/
theorem C6_relation_valid_iff_witness :
    (∃ (N : Nat) (b : Bool), (∀ fuel, N ≤ fuel → isValidData nestedDoc fuel nestedRoot = some b) ∧
      (b = true ↔ ∀ w, Relation.TransGen (partEdge nestedDoc) nestedRoot w → isWay w = true →
        w.nds ≠ [] ∧ w.nds.head? = w.nds.getLast?)) ∧
    isValidData nestedDoc 4 nestedRoot = some true :=
  ⟨C6_relation_valid_iff nestedDoc nestedRoot rfl
    (acyclic_of_rank nestedDoc
      (fun e => if e.id = "1" then 2 else if e.id = "3" then 1 else 0) (by decide)),
   by decide⟩

end PartGraph

section Assembly

variable {R : Type} [LinearOrderedField R]

open Building

omit [LinearOrderedField R] in
/-- The loop over the part members of `addParts` cannot end normally when one of the
members does not resolve: the element read from it is `null`. -/
theorem addMemberParts_dangling (doc : Document)
    (make makeMulti : String → Except JSError (BuildingPart R)) (members : List Member)
    (h : ∃ m ∈ members, getElementById doc m.ref = none) (parts : List (BuildingPart R)) :
    ∀ r, addMemberParts doc make makeMulti members parts ≠ .ok r := by
  induction members generalizing parts with
  | nil => obtain ⟨m, hm, _⟩ := h; cases hm
  | cons m rest ih =>
    intro r
    unfold addMemberParts
    cases hm : getElementById doc m.ref with
    | none => simp
    | some part =>
      have hrest : ∃ m' ∈ rest, getElementById doc m'.ref = none := by
        obtain ⟨m', hm', hnone⟩ := h
        rcases List.mem_cons.1 hm' with rfl | hm'
        · rw [hm] at hnone; cases hnone
        · exact ⟨m', hm', hnone⟩
      simp only
      split
      · split
        · simp
        · exact ih hrest _ r
      · split
        · simp
        · exact ih hrest _ r

/-- C7, at a failing input: a building relation with an outline way, a way part and a
part member whose reference does not resolve passes `isValidData`, and the constructor
then ends with a `TypeError` instead of a building whose parts are those of the
resolvable members. Whatever the two part constructors do, the loop of `addParts` over
the part members of this relation does not end normally: it reads `tagName` on the
unresolved member. -/
theorem C7_dangling_part_throws :
    (getElementById danglingDoc "20").bind (isValidData danglingDoc 4) = some true ∧
    (construct testEnv 4 "20" danglingDoc).thrown = some .typeError ∧
    (construct testEnv 4 "20" danglingDoc).result.isNone = true ∧
    ∀ (make makeMulti : String → Except JSError (BuildingPart ℚ))
      (parts r : List (BuildingPart ℚ)),
      addMemberParts danglingDoc make makeMulti
        [member "way" "11" "part", member "way" "99" "part"] parts ≠ .ok r :=
  ⟨by decide, by decide, by decide, fun make makeMulti parts r =>
    addMemberParts_dangling danglingDoc make makeMulti _
      ⟨member "way" "99" "part", by simp, by decide⟩ parts r⟩

/-- C8: when `isValidData` returns false for the root element, the constructor returns a
building without partial model: the parts list is empty, `outerElement` is unset, the
node table is empty and `home` is unset; only the kind has been assigned. -/
theorem C8_invalid_aborts (E : Env R) (fuel : Nat) (id : String) (doc : Document)
    (root : Element) (kind : Kind) (hroot : getElementById doc id = some root)
    (hkind : classify root = .ok kind) (hbad : isValidData doc fuel root = some false) :
    ∃ b, construct E fuel id doc = .done b ∧ b.parts = [] ∧ b.outerElement.isNone = true ∧
      b.nodelist = [] ∧ b.home.isNone = true ∧ b.type = some kind := by
  refine ⟨{ (initial id doc : Building R) with type := some kind }, ?_, rfl, rfl, rfl, rfl, rfl⟩
  simp [construct, hroot, hkind, hbad]

/-- C8 at a way tagged as a building whose ring is not closed. -/
theorem C8_invalid_aborts_witness :
    isValidData openWayDoc 1 (way "10" [tag "building" "yes"] ["1", "2", "3", "4"])
      = some false ∧
    ∃ b, construct testEnv 1 "10" openWayDoc = .done b ∧ b.parts = [] ∧
      b.outerElement.isNone = true ∧ b.nodelist = [] ∧ b.home.isNone = true ∧
      b.type = some .way :=
  ⟨by decide,
   C8_invalid_aborts testEnv 1 "10" openWayDoc
    (way "10" [tag "building" "yes"] ["1", "2", "3", "4"]) .way (by decide) rfl
    (by decide)⟩

/-- C9, as stated, fails for a root relation without a tag of key "type": no kind is
assigned, the constructor ends with a `TypeError`. -/
theorem C9_untyped_relation_throws :
    getElementById untypedDoc "1"
      = some (relation "1" [tag "building" "yes"] [member "way" "2" "part"]) ∧
    classify (relation "1" [tag "building" "yes"] [member "way" "2" "part"])
      = .error .typeError ∧
    (construct testEnv 4 "1" untypedDoc).thrown = some .typeError ∧
    (construct testEnv 4 "1" untypedDoc).result.isNone = true :=
  ⟨by decide, rfl, by decide, by decide⟩

/-- C9, amended: the value the constructor assigns to `this.type` is "way" if the root
tag name is "way", whatever its tags; otherwise, if the root has a tag with key "type",
it is "multipolygon" when the value of that tag is "multipolygon", whatever its members,
and "relation" when it is another value; a root that is not a way and has no such tag
makes the constructor throw. -/
theorem C9_classification (root : Element) :
    (toLowerCase root.tagName = "way" → classify root = .ok .way) ∧
    (toLowerCase root.tagName ≠ "way" → ∀ t, querySelectorK root "type" = some t →
      t.v = "multipolygon" → classify root = .ok .multipolygon) ∧
    (toLowerCase root.tagName ≠ "way" → ∀ t, querySelectorK root "type" = some t →
      t.v ≠ "multipolygon" → classify root = .ok .relation) ∧
    (toLowerCase root.tagName ≠ "way" → querySelectorK root "type" = none →
      classify root = .error .typeError) := by
  refine ⟨?_, ?_, ?_, ?_⟩
  · intro h; simp [classify, h]
  · intro h t ht hv; simp [classify, h, ht, hv]
  · intro h t ht hv; simp [classify, h, ht, hv]
  · intro h ht; simp [classify, h, ht]

/-- C9 at a way tagged `type=multipolygon`, at a multipolygon relation with a part
member, and at a relation of another type. -/
theorem C9_classification_witness :
    classify (way "1" [tag "type" "multipolygon"] []) = .ok .way ∧
    classify (relation "1" [tag "type" "multipolygon"] [member "way" "2" "part"])
      = .ok .multipolygon ∧
    classify (relation "1" [tag "type" "building"] [member "way" "2" "part"])
      = .ok .relation :=
  ⟨(C9_classification (way "1" [tag "type" "multipolygon"] [])).1 (by decide),
   (C9_classification
      (relation "1" [tag "type" "multipolygon"] [member "way" "2" "part"])).2.1
      (by decide) (tag "type" "multipolygon") (by decide) (by decide),
   (C9_classification
      (relation "1" [tag "type" "building"] [member "way" "2" "part"])).2.2.1
      (by decide) (tag "type" "building") (by decide) (by decide)⟩

end Assembly

/-! ## Extents (`getExtents`) -/

section ExtentsProps

variable {R : Type} [LinearOrderedField R]

open Building

omit [LinearOrderedField R] in
/-- The tag name "relation" is not "way". -/
theorem relation_ne_way {s : String} (h : toLowerCase s = "relation") :
    ¬ toLowerCase s = "way" := by
  rw [h]; decide

/-- The loop over the outer members after its first iteration: the box so far is united
with the box of every further member. -/
theorem outerExtents_fold (E : Env R) (doc : Document) (nodelist : NodeList R)
    (members : List Member) (boxes : List (Box R)) (i : Nat) (acc : Box R) (hi : i ≠ 0)
    (hboxes : members.map (memberBox E doc nodelist) = boxes.map (fun q => some (finBox q))) :
    outerExtents E doc nodelist members i (some (finBox acc)) =
      .ok (some (finBox (boxes.foldl Box.union acc))) := by
  induction members generalizing boxes i acc with
  | nil =>
    cases boxes with
    | nil => rfl
    | cons q qs => simp at hboxes
  | cons m rest ih =>
    cases boxes with
    | nil => simp at hboxes
    | cons q qs =>
      simp only [List.map_cons, List.cons.injEq] at hboxes
      obtain ⟨hm, hrest⟩ := hboxes
      unfold memberBox at hm
      unfold outerExtents
      split at hm
      · rename_i shape hs
        simp only [Option.some.injEq] at hm
        simp only [hs, hm, hi, if_false]
        have := ih qs (i + 1) (acc.union q) (by omega) hrest
        simpa [finBox, Box.union, JSNumber.min, JSNumber.max] using this
      · cases hm

/-- The union of a non-empty list of boxes is below (left, bottom) and above (right,
top) each of them, and each of its sides is the side of one of them. -/
theorem fold_union_bounds (qs : List (Box R)) (q : Box R) :
    (∀ x ∈ q :: qs, (qs.foldl Box.union q).left ≤ x.left ∧
      (qs.foldl Box.union q).bottom ≤ x.bottom ∧ x.right ≤ (qs.foldl Box.union q).right ∧
      x.top ≤ (qs.foldl Box.union q).top) ∧
    (∃ x ∈ q :: qs, x.left = (qs.foldl Box.union q).left) ∧
    (∃ x ∈ q :: qs, x.bottom = (qs.foldl Box.union q).bottom) ∧
    (∃ x ∈ q :: qs, x.right = (qs.foldl Box.union q).right) ∧
    (∃ x ∈ q :: qs, x.top = (qs.foldl Box.union q).top) := by
  induction qs generalizing q with
  | nil => simp
  | cons y ys ih =>
    obtain ⟨hb, hl, hbt, hr, ht⟩ := ih (q.union y)
    simp only [List.foldl_cons]
    have hq := hb (q.union y) (List.mem_cons_self _ _)
    refine ⟨?_, ?_, ?_, ?_, ?_⟩
    · intro x hx
      rcases List.mem_cons.1 hx with rfl | hx
      · exact ⟨le_trans hq.1 (min_le_left _ _), le_trans hq.2.1 (min_le_left _ _),
          le_trans (le_max_left _ _) hq.2.2.1, le_trans (le_max_left _ _) hq.2.2.2⟩
      · rcases List.mem_cons.1 hx with rfl | hx
        · exact ⟨le_trans hq.1 (min_le_right _ _), le_trans hq.2.1 (min_le_right _ _),
            le_trans (le_max_right _ _) hq.2.2.1, le_trans (le_max_right _ _) hq.2.2.2⟩
        · exact hb x (List.mem_cons_of_mem _ hx)
    · obtain ⟨x, hx, hxe⟩ := hl
      rcases List.mem_cons.1 hx with rfl | hx
      · rcases min_choice q.left y.left with h | h
        · exact ⟨q, by simp, by rw [← hxe]; exact h.symm⟩
        · exact ⟨y, by simp, by rw [← hxe]; exact h.symm⟩
      · exact ⟨x, by simp [hx], hxe⟩
    · obtain ⟨x, hx, hxe⟩ := hbt
      rcases List.mem_cons.1 hx with rfl | hx
      · rcases min_choice q.bottom y.bottom with h | h
        · exact ⟨q, by simp, by rw [← hxe]; exact h.symm⟩
        · exact ⟨y, by simp, by rw [← hxe]; exact h.symm⟩
      · exact ⟨x, by simp [hx], hxe⟩
    · obtain ⟨x, hx, hxe⟩ := hr
      rcases List.mem_cons.1 hx with rfl | hx
      · rcases max_choice q.right y.right with h | h
        · exact ⟨q, by simp, by rw [← hxe]; exact h.symm⟩
        · exact ⟨y, by simp, by rw [← hxe]; exact h.symm⟩
      · exact ⟨x, by simp [hx], hxe⟩
    · obtain ⟨x, hx, hxe⟩ := ht
      rcases List.mem_cons.1 hx with rfl | hx
      · rcases max_choice q.top y.top with h | h
        · exact ⟨q, by simp, by rw [← hxe]; exact h.symm⟩
        · exact ⟨y, by simp, by rw [← hxe]; exact h.symm⟩
      · exact ⟨x, by simp [hx], hxe⟩

/-- C10: for a multipolygon relation with at least one outer member, all of whose
footprints can be built and have finite extents, `getExtents` returns the componentwise
union of the outer members' boxes: its left and bottom are the least left and bottom
(each is below every box and attained by one), its right and top the greatest; so it
contains every member's box, and it is that box when there is a single outer member. -/
theorem C10_multipolygon_extents (E : Env R) (id : String) (doc : Document)
    (nodelist : NodeList R) (root : Element) (t : Tag) (boxes : List (Box R))
    (hroot : getElementById doc id = some root)
    (htag : toLowerCase root.tagName = "relation")
    (ht : querySelectorK root "type" = some t) (hv : t.v = "multipolygon")
    (hne : querySelectorAllMembers root "outer" ≠ [])
    (hboxes : (querySelectorAllMembers root "outer").map (memberBox E doc nodelist) =
      boxes.map (fun q => some (finBox q))) :
    ∃ r : Box R, getExtents E id doc nodelist = .ok (some (finBox r)) ∧
      (∀ q ∈ boxes, r.left ≤ q.left ∧ r.bottom ≤ q.bottom ∧ q.right ≤ r.right ∧
        q.top ≤ r.top) ∧
      (∃ q ∈ boxes, q.left = r.left) ∧ (∃ q ∈ boxes, q.bottom = r.bottom) ∧
      (∃ q ∈ boxes, q.right = r.right) ∧ (∃ q ∈ boxes, q.top = r.top) ∧
      (∀ q, boxes = [q] → r = q) := by
  cases hm : querySelectorAllMembers root "outer" with
  | nil => exact absurd hm hne
  | cons m rest =>
    rw [hm] at hboxes
    cases boxes with
    | nil => simp at hboxes
    | cons q qs =>
      simp only [List.map_cons, List.cons.injEq] at hboxes
      obtain ⟨hmq, hrest⟩ := hboxes
      refine ⟨qs.foldl Box.union q, ?_, fold_union_bounds qs q |>.1,
        (fold_union_bounds qs q).2.1, (fold_union_bounds qs q).2.2.1,
        (fold_union_bounds qs q).2.2.2.1, (fold_union_bounds qs q).2.2.2.2, ?_⟩
      · unfold getExtents
        simp only [hroot, relation_ne_way htag, htag, ht, hv, if_true, if_false, hm]
        unfold memberBox at hmq
        unfold outerExtents
        split at hmq
        · rename_i shape hs
          simp only [Option.some.injEq] at hmq
          simp only [hs, hmq, if_true]
          exact outerExtents_fold E doc nodelist rest qs 1 q (by omega) hrest
        · cases hmq
      · intro q' hq'
        simp only [List.cons.injEq] at hq'
        obtain ⟨rfl, rfl⟩ := hq'
        rfl

/-- The node table entries, converted to numbers, as the loop of `getExtents` reads
them. -/
theorem nodeExtents_fold (B : Builtins R) (nodelist : NodeList R) (pts : List (R × R))
    (acc : Box R)
    (hfin : nodelist.map (fun e => (e.2.1.toNumber B, e.2.2.toNumber B)) =
      pts.map (fun p => (JSNumber.fin p.1, JSNumber.fin p.2))) :
    nodelist.foldl
      (fun extents entry =>
        ({ left := extents.left.min (entry.2.1.toNumber B)
           bottom := extents.bottom.min (entry.2.2.toNumber B)
           right := extents.right.max (entry.2.1.toNumber B)
           top := extents.top.max (entry.2.2.toNumber B) } : Extents R))
      (finBox acc) =
    finBox ((pts.map (fun p => ({ left := p.1, bottom := p.2, right := p.1, top := p.2 } : Box R))).foldl
      Box.union acc) := by
  induction nodelist generalizing pts acc with
  | nil =>
    cases pts with
    | nil => rfl
    | cons p ps => simp at hfin
  | cons e rest ih =>
    cases pts with
    | nil => simp at hfin
    | cons p ps =>
      simp only [List.map_cons, List.cons.injEq, Prod.mk.injEq] at hfin
      obtain ⟨⟨h1, h2⟩, hrest⟩ := hfin
      simp only [List.foldl_cons, List.map_cons, h1, h2]
      have := ih ps (acc.union { left := p.1, bottom := p.2, right := p.1, top := p.2 }) hrest
      simpa [finBox, Box.union, JSNumber.min, JSNumber.max] using this

/-- C11, amended: for a relation with a tag of key "type" whose value is not
"multipolygon" and a node table whose coordinates are finite numbers, `getExtents`
returns the bounding box of all the nodes of the node table it is given, joined with the
seed [180, 90, -180, -90]; the members of the relation do not enter the result. -/
theorem C11_relation_extents_all_nodes (E : Env R) (id : String) (doc : Document)
    (nodelist : NodeList R) (root : Element) (t : Tag) (pts : List (R × R))
    (hroot : getElementById doc id = some root)
    (htag : toLowerCase root.tagName = "relation")
    (ht : querySelectorK root "type" = some t) (hv : t.v ≠ "multipolygon")
    (hfin : nodelist.map (fun e => (e.2.1.toNumber E.toBuiltins, e.2.2.toNumber E.toBuiltins)) =
      pts.map (fun p => (JSNumber.fin p.1, JSNumber.fin p.2))) :
    ∃ r : Box R, getExtents E id doc nodelist = .ok (some (finBox r)) ∧
      (∀ p ∈ pts, r.left ≤ p.1 ∧ r.bottom ≤ p.2 ∧ p.1 ≤ r.right ∧ p.2 ≤ r.top) ∧
      (r.left ≤ 180 ∧ r.bottom ≤ 90 ∧ -180 ≤ r.right ∧ -90 ≤ r.top) ∧
      (r.left = 180 ∨ ∃ p ∈ pts, p.1 = r.left) ∧
      (r.bottom = 90 ∨ ∃ p ∈ pts, p.2 = r.bottom) ∧
      (r.right = -180 ∨ ∃ p ∈ pts, p.1 = r.right) ∧
      (r.top = -90 ∨ ∃ p ∈ pts, p.2 = r.top) := by
  let seed : Box R := { left := 180, bottom := 90, right := -180, top := -90 }
  let boxes := pts.map (fun p => ({ left := p.1, bottom := p.2, right := p.1, top := p.2 } : Box R))
  obtain ⟨hb, hl, hbt, hr, htop⟩ := fold_union_bounds boxes seed
  refine ⟨boxes.foldl Box.union seed, ?_, ?_, ?_, ?_, ?_, ?_, ?_⟩
  · unfold getExtents
    simp only [hroot, relation_ne_way htag, htag, ht, hv, if_true, if_false]
    unfold nodeExtents
    exact congrArg (fun x => Except.ok (some x)) (nodeExtents_fold E.toBuiltins nodelist pts seed hfin)
  · intro p hp
    exact hb _ (List.mem_cons_of_mem _ (List.mem_map.2 ⟨p, hp, rfl⟩))
  · exact hb seed (List.mem_cons_self _ _)
  · obtain ⟨x, hx, hxe⟩ := hl
    rcases List.mem_cons.1 hx with rfl | hx
    · exact Or.inl hxe.symm
    · obtain ⟨p, hp, rfl⟩ := List.mem_map.1 hx
      exact Or.inr ⟨p, hp, hxe⟩
  · obtain ⟨x, hx, hxe⟩ := hbt
    rcases List.mem_cons.1 hx with rfl | hx
    · exact Or.inl hxe.symm
    · obtain ⟨p, hp, rfl⟩ := List.mem_map.1 hx
      exact Or.inr ⟨p, hp, hxe⟩
  · obtain ⟨x, hx, hxe⟩ := hr
    rcases List.mem_cons.1 hx with rfl | hx
    · exact Or.inl hxe.symm
    · obtain ⟨p, hp, rfl⟩ := List.mem_map.1 hx
      exact Or.inr ⟨p, hp, hxe⟩
  · obtain ⟨x, hx, hxe⟩ := htop
    rcases List.mem_cons.1 hx with rfl | hx
    · exact Or.inl hxe.symm
    · obtain ⟨p, hp, rfl⟩ := List.mem_map.1 hx
      exact Or.inr ⟨p, hp, hxe⟩

/-- C10 at a multipolygon with the outer rings [0,0,2,2] and [1,1,5,3]: the result is
[0,0,5,3]. -/
theorem C10_multipolygon_extents_witness :
    (∃ r : Box ℚ, getExtents testEnv "30" multiDoc (buildNodeList multiDoc)
        = .ok (some (finBox r)) ∧
      (∀ q ∈ [qbox 0 0 2 2, qbox 1 1 5 3],
        r.left ≤ q.left ∧ r.bottom ≤ q.bottom ∧ q.right ≤ r.right ∧ q.top ≤ r.top) ∧
      (∃ q ∈ [qbox 0 0 2 2, qbox 1 1 5 3], q.left = r.left) ∧
      (∃ q ∈ [qbox 0 0 2 2, qbox 1 1 5 3], q.bottom = r.bottom) ∧
      (∃ q ∈ [qbox 0 0 2 2, qbox 1 1 5 3], q.right = r.right) ∧
      (∃ q ∈ [qbox 0 0 2 2, qbox 1 1 5 3], q.top = r.top) ∧
      (∀ q, [qbox 0 0 2 2, qbox 1 1 5 3] = [q] → r = q)) ∧
    (getExtents testEnv "30" multiDoc (buildNodeList multiDoc)).toOption =
      some (some (finBox (qbox 0 0 5 3))) :=
  ⟨C10_multipolygon_extents testEnv "30" multiDoc (buildNodeList multiDoc)
    (relation "30" [tag "type" "multipolygon"]
        [member "way" "11" "outer", member "way" "12" "outer"])
    (tag "type" "multipolygon") [qbox 0 0 2 2, qbox 1 1 5 3] (by decide) (by decide)
    (by decide) (by decide) (by decide) (by decide), by decide⟩

/-- C11 at the relation of `strayDoc`, whose table entries are the four corners of the
square and the stray node. -/
theorem C11_relation_extents_all_nodes_witness :
    ∃ r : Box ℚ, getExtents testEnv "20" strayDoc (buildNodeList strayDoc)
        = .ok (some (finBox r)) ∧
      (∀ p ∈ [((0 : ℚ), (0 : ℚ)), (2, 0), (2, 2), (0, 2), (50, 60)],
        r.left ≤ p.1 ∧ r.bottom ≤ p.2 ∧ p.1 ≤ r.right ∧ p.2 ≤ r.top) ∧
      (r.left ≤ 180 ∧ r.bottom ≤ 90 ∧ -180 ≤ r.right ∧ -90 ≤ r.top) ∧
      (r.left = 180 ∨ ∃ p ∈ [((0 : ℚ), (0 : ℚ)), (2, 0), (2, 2), (0, 2), (50, 60)],
        p.1 = r.left) ∧
      (r.bottom = 90 ∨ ∃ p ∈ [((0 : ℚ), (0 : ℚ)), (2, 0), (2, 2), (0, 2), (50, 60)],
        p.2 = r.bottom) ∧
      (r.right = -180 ∨ ∃ p ∈ [((0 : ℚ), (0 : ℚ)), (2, 0), (2, 2), (0, 2), (50, 60)],
        p.1 = r.right) ∧
      (r.top = -90 ∨ ∃ p ∈ [((0 : ℚ), (0 : ℚ)), (2, 0), (2, 2), (0, 2), (50, 60)],
        p.2 = r.top) :=
  C11_relation_extents_all_nodes testEnv "20" strayDoc (buildNodeList strayDoc)
    (relation "20" [tag "type" "building"] [member "way" "10" "outline"])
    (tag "type" "building") [(0, 0), (2, 0), (2, 2), (0, 2), (50, 60)] (by decide)
    (by decide) (by decide) (by decide) (by decide)

/-- C11, as stated, fails: node 9 is referenced nowhere under relation 20, yet with it
in the node table the extents are [0,0,50,60], and without it [0,0,2,2]. -/
theorem C11_unreferenced_node_counts :
    (getExtents testEnv "20" strayDoc (buildNodeList strayDoc)).toOption =
      some (some (finBox (qbox 0 0 50 60))) ∧
    (getExtents testEnv "20" strayDoc
        (buildNodeList (strayDoc.filter (fun e => e.id ≠ "9")))).toOption =
      some (some (finBox (qbox 0 0 2 2))) := by
  decide

end ExtentsProps

/-! ## Projection (`repositionPoint`, `repositionNodes`) -/

section Projection
open Building

/-- C13: in exact real arithmetic `repositionPoint` is mirror-symmetric about the home
meridian: the image of the point at longitude offset `-d` is the image of the point at
offset `d` with the first coordinate negated and the second unchanged. -/
theorem C13_mirror_symmetry (B : Builtins ℝ) (homeLon homeLat lat d : ℝ) :
    repositionPoint (B.withMath Real.sin Real.cos Real.arctan Real.sqrt Real.pi)
        (.num (.fin (homeLon - d)), .num (.fin lat)) (.num (.fin homeLon), .num (.fin homeLat)) =
      ((repositionPoint (B.withMath Real.sin Real.cos Real.arctan Real.sqrt Real.pi)
        (.num (.fin (homeLon + d)), .num (.fin lat))
        (.num (.fin homeLon), .num (.fin homeLat))).1.neg,
       (repositionPoint (B.withMath Real.sin Real.cos Real.arctan Real.sqrt Real.pi)
        (.num (.fin (homeLon + d)), .num (.fin lat))
        (.num (.fin homeLon), .num (.fin homeLat))).2) := by
  have h1 : (homeLon - d + -homeLon) / 180 * Real.pi = -(d / 180 * Real.pi) := by ring
  have h2 : (homeLon + d + -homeLon) / 180 * Real.pi = d / 180 * Real.pi := by ring
  have h180 : (180 : ℝ) ≠ 0 := by norm_num
  simp only [repositionPoint, Builtins.withMath, JSValue.toNumber, JSNumber.sub, JSNumber.neg,
    JSNumber.add, JSNumber.div, JSNumber.mul, JSNumber.liftBounded, h180, if_false, h1, h2,
    Real.sin_neg, Real.cos_neg]
  simp [JSNumber.neg]

/-- C12: in exact real arithmetic `repositionPoint` maps the home point to the origin,
for every longitude and every latitude from -90 to 90 degrees (the poles included, where
the quotient `y / z` is an infinity whose arctangent is a right angle). -/
theorem C12_home_to_origin (B : Builtins ℝ) (lon lat : ℝ) (hlo : -90 ≤ lat) (hhi : lat ≤ 90) :
    repositionPoint (B.withMath Real.sin Real.cos Real.arctan Real.sqrt Real.pi)
        (.num (.fin lon), .num (.fin lat)) (.num (.fin lon), .num (.fin lat)) =
      (.fin 0, .fin 0) := by
  have h180 : (180 : ℝ) ≠ 0 := by norm_num
  have hth : (lon + -lon) / 180 * Real.pi = 0 := by ring
  have hphi : (90 + -lat) / 180 * Real.pi = Real.pi / 2 - lat / 180 * Real.pi := by ring
  have hnn : ¬ (6371 * 1000 * Real.cos (lat / 180 * Real.pi) *
        (6371 * 1000 * Real.cos (lat / 180 * Real.pi)) +
      6371 * 1000 * Real.sin (lat / 180 * Real.pi) *
        (6371 * 1000 * Real.sin (lat / 180 * Real.pi)) < 0) :=
    not_lt.2 (add_nonneg (mul_self_nonneg _) (mul_self_nonneg _))
  have hge : -(Real.pi / 2) ≤ lat / 180 * Real.pi := by
    have := Real.pi_pos
    nlinarith
  have hle : lat / 180 * Real.pi ≤ Real.pi / 2 := by
    have := Real.pi_pos
    nlinarith
  simp only [repositionPoint, Builtins.withMath, JSValue.toNumber, JSNumber.sub, JSNumber.neg,
    JSNumber.add, JSNumber.div, JSNumber.mul, JSNumber.liftBounded, h180, if_false, hth, hphi,
    Real.sin_zero, Real.cos_zero, Real.sin_pi_div_two_sub, Real.cos_pi_div_two_sub,
    mul_zero, zero_mul, mul_one, mathSqrt, hnn]
  by_cases hc : Real.cos (lat / 180 * Real.pi) = 0
  · have hends : lat / 180 * Real.pi = Real.pi / 2 ∨ lat / 180 * Real.pi = -(Real.pi / 2) := by
      by_contra hne
      push_neg at hne
      have hpos := Real.cos_pos_of_mem_Ioo
        (show lat / 180 * Real.pi ∈ Set.Ioo (-(Real.pi / 2)) (Real.pi / 2) from
          ⟨lt_of_le_of_ne hge (Ne.symm hne.2), lt_of_le_of_ne hle hne.1⟩)
      rw [hc] at hpos
      exact lt_irrefl _ hpos
    have hearth : ¬ ((6371 : ℝ) * 1000 < 0) := by norm_num
    rcases hends with h | h
    · simp [h, Real.sin_pi_div_two, JSNumber.infOfSign, mathAtan]
    · simp [h, Real.sin_pi_div_two, JSNumber.infOfSign, mathAtan, hearth]
  · have hz : ¬ (6371 * 1000 * Real.cos (lat / 180 * Real.pi) = 0) := by
      simpa using hc
    have hlt : lat / 180 * Real.pi < Real.pi / 2 := by
      refine lt_of_le_of_ne hle (fun h => hc ?_)
      rw [h, Real.cos_pi_div_two]
    have hgt : -(Real.pi / 2) < lat / 180 * Real.pi := by
      refine lt_of_le_of_ne hge (fun h => hc ?_)
      rw [← h, Real.cos_neg, Real.cos_pi_div_two]
    have htan : 6371 * 1000 * Real.sin (lat / 180 * Real.pi) /
        (6371 * 1000 * Real.cos (lat / 180 * Real.pi)) = Real.tan (lat / 180 * Real.pi) := by
      rw [Real.tan_eq_sin_div_cos]
      exact mul_div_mul_left _ _ (by norm_num)
    simp [hz, mathAtan, htan, Real.arctan_tan hgt hlt]


/-- C12 at the home point (13, 52) and at the north pole. -/
theorem C12_home_to_origin_witness :
    repositionPoint
        ((numericBuiltins ℝ).withMath Real.sin Real.cos Real.arctan Real.sqrt Real.pi)
        (.num (.fin 13), .num (.fin 52)) (.num (.fin 13), .num (.fin 52)) = (.fin 0, .fin 0) ∧
    repositionPoint
        ((numericBuiltins ℝ).withMath Real.sin Real.cos Real.arctan Real.sqrt Real.pi)
        (.num (.fin 13), .num (.fin 90)) (.num (.fin 13), .num (.fin 90)) = (.fin 0, .fin 0) :=
  ⟨C12_home_to_origin _ 13 52 (by norm_num) (by norm_num),
   C12_home_to_origin _ 13 90 (by norm_num) (by norm_num)⟩

end Projection

section Reprojection
variable {R : Type} [LinearOrderedField R]
open Building

omit [LinearOrderedField R] in
/-- Reading a key that first occurs after `pre`. -/
theorem nodeGet_append_of_not_mem (pre : NodeList R) (k : String) (v : JSValue R × JSValue R)
    (suf : NodeList R) (h : k ∉ pre.map (fun e => e.1)) :
    nodeGet (pre ++ (k, v) :: suf) k = some v := by
  induction pre with
  | nil => simp [nodeGet]
  | cons e rest ih =>
    have hne : ¬ e.1 = k := fun he => h (by simp [he])
    have hrest : k ∉ rest.map (fun e => e.1) := fun hm => h (by simp at hm ⊢; exact Or.inr hm)
    have := ih hrest
    simp only [nodeGet, List.cons_append, List.find?_cons, hne, decide_False] at this ⊢
    exact this

omit [LinearOrderedField R] in
/-- Writing a key that first occurs after `pre`. -/
theorem nodeSet_append_of_not_mem (pre : NodeList R) (k : String) (v v' : JSValue R × JSValue R)
    (suf : NodeList R) (h : k ∉ pre.map (fun e => e.1)) :
    nodeSet k v' (pre ++ (k, v) :: suf) = pre ++ (k, v') :: suf := by
  induction pre with
  | nil => simp [nodeSet]
  | cons e rest ih =>
    have hne : ¬ e.1 = k := fun he => h (by simp [he])
    have hrest : k ∉ rest.map (fun e => e.1) := fun hm => h (by simp at hm ⊢; exact Or.inr hm)
    simp [nodeSet, hne, ih hrest]

/-- The loop of `repositionNodes` once the keys of `pre` are done. -/
theorem repositionNodes_loop (B : Builtins R) (home : JSValue R × JSValue R)
    (pre suf : NodeList R) (f : String × (JSValue R × JSValue R) → String × (JSValue R × JSValue R))
    (hf : f = fun e => (e.1, (.num (repositionPoint B e.2 home).1, .num (repositionPoint B e.2 home).2)))
    (hnodup : ((pre ++ suf).map (fun e => e.1)).Nodup) :
    (suf.map (fun e => e.1)).foldl
      (fun cur key =>
        match nodeGet cur key with
        | some latLon =>
          nodeSet key
            (.num (repositionPoint B latLon home).1, .num (repositionPoint B latLon home).2) cur
        | none => cur)
      (pre.map f ++ suf) = (pre ++ suf).map f := by
  induction suf generalizing pre with
  | nil => simp
  | cons e rest ih =>
    have hk : e.1 ∉ (pre.map f).map (fun e => e.1) := by
      rw [List.map_append, List.nodup_append] at hnodup
      intro hm
      have hm' : e.1 ∈ pre.map (fun e => e.1) := by
        subst hf; simpa using hm
      exact hnodup.2.2 hm' (by simp)
    have hget := nodeGet_append_of_not_mem (pre.map f) e.1 e.2 rest hk
    have hset := fun v' => nodeSet_append_of_not_mem (pre.map f) e.1 e.2 v' rest hk
    simp only [List.map_cons, List.foldl_cons]
    have he : (e.1, e.2) = e := rfl
    rw [he] at hget hset
    rw [hget]
    simp only [hset]
    have := ih (pre ++ [e]) (by simpa using hnodup)
    simp only [List.map_append, List.map_cons, List.map_nil, List.append_assoc,
      List.singleton_append] at this
    have hfe : f e = (e.1, (.num (repositionPoint B e.2 home).1, .num (repositionPoint B e.2 home).2)) := by
      subst hf; rfl
    rw [hfe] at this
    rw [this, List.map_append, List.map_cons, hfe]

/-- C14: `repositionNodes` reprojects the node table in place and one-to-one: the keys
of the table are the same after it as before, in the same places, and for every key the
entry is `repositionPoint` of the previous entry (and absent if it was absent). The
keys of a table are distinct. -/
theorem C14_repositionNodes_in_place (B : Builtins R) (home : JSValue R × JSValue R)
    (nodelist : NodeList R) (hnodup : (nodelist.map (fun e => e.1)).Nodup) :
    (repositionNodes B home nodelist).map (fun e => e.1) = nodelist.map (fun e => e.1) ∧
    ∀ key, nodeGet (repositionNodes B home nodelist) key =
      (nodeGet nodelist key).map (fun latLon =>
        (.num (repositionPoint B latLon home).1, .num (repositionPoint B latLon home).2)) := by
  have h := repositionNodes_loop B home [] nodelist _ rfl (by simpa using hnodup)
  simp only [List.map_nil, List.nil_append] at h
  unfold repositionNodes
  rw [h]
  constructor
  · simp
  · intro key
    simp only [nodeGet, List.find?_map, Option.map_map]
    rfl

omit [LinearOrderedField R] in
/-- The keys after a write. -/
theorem nodeSet_keys (key : String) (v : JSValue R × JSValue R) (nl : NodeList R) :
    (nodeSet key v nl).map (fun e => e.1) =
      if key ∈ nl.map (fun e => e.1) then nl.map (fun e => e.1)
      else nl.map (fun e => e.1) ++ [key] := by
  induction nl with
  | nil => simp [nodeSet]
  | cons e rest ih =>
    by_cases he : e.1 = key
    · simp [nodeSet, he]
    · have hne : ¬ key = e.1 := fun h => he h.symm
      simp only [nodeSet, he, if_false, List.map_cons, ih, List.mem_cons, hne, false_or]
      split <;> simp

omit [LinearOrderedField R] in
/-- The keys of the table `buildNodeList` returns are distinct. -/
theorem buildNodeList_nodup (doc : Document) :
    ((buildNodeList doc : NodeList R).map (fun e => e.1)).Nodup := by
  unfold buildNodeList
  suffices h : ∀ (l : List Element) (acc : NodeList R), (acc.map (fun e => e.1)).Nodup →
      ((l.foldl (fun nodeList node =>
        nodeSet node.id (attributeValue node.lon, attributeValue node.lat) nodeList) acc).map
          (fun e => e.1)).Nodup from h _ [] (by simp)
  intro l
  induction l with
  | nil => intro acc h; simpa using h
  | cons n rest ih =>
    intro acc h
    simp only [List.foldl_cons]
    apply ih
    rw [nodeSet_keys]
    split
    · exact h
    · rename_i hn
      rw [List.nodup_append]
      exact ⟨h, by simp, by simpa using hn⟩


/-- C14 at the table of the four corner nodes, with home (1, 1). -/
theorem C14_repositionNodes_in_place_witness :
    (repositionNodes testBuiltins (.num (.fin 1), .num (.fin 1))
        (buildNodeList squareNodes)).map (fun e => e.1) = ["1", "2", "3", "4"] ∧
    ∀ key, nodeGet (repositionNodes testBuiltins (.num (.fin 1), .num (.fin 1))
        (buildNodeList squareNodes)) key =
      (nodeGet (buildNodeList squareNodes) key).map (fun latLon =>
        (.num (repositionPoint testBuiltins latLon (.num (.fin 1), .num (.fin 1))).1,
         .num (repositionPoint testBuiltins latLon (.num (.fin 1), .num (.fin 1))).2)) :=
  ⟨(C14_repositionNodes_in_place testBuiltins (.num (.fin 1), .num (.fin 1))
      (buildNodeList squareNodes) (by decide)).1.trans (by decide),
   (C14_repositionNodes_in_place testBuiltins (.num (.fin 1), .num (.fin 1))
      (buildNodeList squareNodes) (by decide)).2⟩

end Reprojection

/-! ## Assembly of the parts (`addParts`) -/

section PartsProps
variable {R : Type} [LinearOrderedField R]
open Building

/-- What `addParts` leaves unchanged. -/
theorem addParts_frame (E : Env R) (b b' : Building R) (h : addParts E b = .ok b') :
    b'.type = b.type ∧ b'.id = b.id ∧ b'.fullXmlData = b.fullXmlData ∧
      b'.outerElement = b.outerElement ∧ b'.nodelist = b.nodelist ∧ b'.home = b.home := by
  unfold addParts at h
  split at h
  · split at h
    · cases h
    · split at h
      · cases h
      · cases h; simp
  · split at h
    · cases h
    · split at h
      · cases h
      · cases h; simp

/-- What `setHome` leaves unchanged. -/
theorem setHome_frame (E : Env R) (b b' : Building R) (h : setHome E b = .ok b') :
    b'.type = b.type ∧ b'.id = b.id ∧ b'.fullXmlData = b.fullXmlData ∧
      b'.outerElement = b.outerElement ∧ b'.nodelist = b.nodelist ∧ b'.parts = b.parts ∧
      b'.home.isSome = true := by
  unfold setHome at h
  split at h
  · cases h
  · cases h; simp

/-- The assembly keeps the kind. -/
theorem assemble_type (E : Env R) (b b' : Building R) (root : Element)
    (h : assemble E b root = .ok b') : b'.type = b.type := by
  unfold assemble at h
  simp only at h
  split at h
  · cases h
  · rename_i b1 h1
    split at h
    · cases h
    · rename_i outer h2
      have := addParts_frame E _ _ h
      have h3 := setHome_frame E _ _ h1
      simp at this h3
      rw [this.1, h3.1]

/-- The kind of a constructed building is the classification of its root. -/
theorem construct_type (E : Env R) (fuel : Nat) (id : String) (doc : Document)
    (b : Building R) (h : construct E fuel id doc = .done b) :
    ∃ root, getElementById doc id = some root ∧ (classify root).toOption = b.type := by
  unfold construct at h
  split at h
  · cases h
  · rename_i root hroot
    refine ⟨root, hroot, ?_⟩
    split at h
    · cases h
    · rename_i kind hk
      simp only at h
      split at h
      · cases h
      · cases h; simp [hk, Except.toOption]
      · split at h
        · cases h
        · rename_i b2 h2
          cases h
          have := assemble_type E _ _ _ h2
          simp [hk, Except.toOption, this]


/-- The constructor `new BuildingPart` throws a `TypeError`, whatever its arguments. -/
theorem create_throws (E : Env R) (id : String) (doc : Document) (nodelist : NodeList R)
    (d : Option (OptionSet R)) :
    BuildingPart.create E id doc nodelist d = .error .typeError := by
  simp [BuildingPart.create, BuildingPart.declaresOptions]

/-- No call of `new BuildingPart` inside `addParts` returns a part. -/
theorem newPart_throws (E : Env R) (b : Building R) (id : String) :
    newPart E b id = .error .typeError := by
  unfold newPart
  cases b.outerElement with
  | none => rfl
  | some outer =>
    simp only
    cases outer.optionsView with
    | none => rfl
    | some o => exact create_throws E id _ _ _

omit [LinearOrderedField R] in
/-- The loop over the part members cannot end normally when the constructor for ways
never returns and one of the members resolves to a way. -/
theorem addMemberParts_way (doc : Document)
    (make makeMulti : String → Except JSError (BuildingPart R))
    (hmake : ∀ id r, make id ≠ .ok r) (members : List Member)
    (h : ∃ m ∈ members, ∃ part, getElementById doc m.ref = some part ∧
      toLowerCase part.tagName = "way") (parts : List (BuildingPart R)) :
    ∀ r, addMemberParts doc make makeMulti members parts ≠ .ok r := by
  induction members generalizing parts with
  | nil => obtain ⟨m, hm, _⟩ := h; cases hm
  | cons m rest ih =>
    intro r
    unfold addMemberParts
    cases hg : getElementById doc m.ref with
    | none => simp
    | some part =>
      simp only
      by_cases hw : toLowerCase part.tagName = "way"
      · simp only [hw, if_true]
        cases hmk : make m.ref with
        | error e => simp
        | ok q => exact absurd hmk (hmake _ _)
      · have hrest : ∃ m' ∈ rest, ∃ part', getElementById doc m'.ref = some part' ∧
            toLowerCase part'.tagName = "way" := by
          obtain ⟨m', hm', part', hp', hw'⟩ := h
          rcases List.mem_cons.1 hm' with rfl | hm'
          · rw [hg] at hp'
            cases hp'
            exact absurd hw' hw
          · exact ⟨m', hm', part', hp', hw'⟩
        simp only [hw, if_false]
        cases hmk : makeMulti m.ref with
        | error e => simp
        | ok q => exact ih hrest _ r

omit [LinearOrderedField R] in
/-- The scan loop cannot end normally when the constructor never returns and one of the
elements has a tag with key `building:part`. -/
theorem addTaggedParts_tagged (make : String → Except JSError (BuildingPart R))
    (hmake : ∀ id r, make id ≠ .ok r) (elements : List Element)
    (h : ∃ e ∈ elements, (querySelectorK e "building:part").isSome = true)
    (parts : List (BuildingPart R)) :
    ∀ r, addTaggedParts make elements parts ≠ .ok r := by
  induction elements generalizing parts with
  | nil => obtain ⟨e, he, _⟩ := h; cases he
  | cons e rest ih =>
    intro r
    unfold addTaggedParts
    by_cases ht : (querySelectorK e "building:part").isSome = true
    · simp only [ht, if_true]
      cases hmk : make e.id with
      | error err => simp
      | ok q => exact absurd hmk (hmake _ _)
    · have hrest : ∃ e' ∈ rest, (querySelectorK e' "building:part").isSome = true := by
        obtain ⟨e', he', ht'⟩ := h
        rcases List.mem_cons.1 he' with rfl | he'
        · exact absurd ht' ht
        · exact ⟨e', he', ht'⟩
      simp only [ht]
      exact ih hrest _ r

/-- For a building of kind "relation" with a part member that resolves to a way,
`addParts` does not end normally: the constructor of that part throws. -/
theorem addParts_way_member (E : Env R) (b : Building R) (root : Element)
    (hkind : b.type = some .relation)
    (hroot : getElementById b.fullXmlData b.id = some root)
    (h : ∃ m ∈ querySelectorAllMembers root "part", ∃ part,
      getElementById b.fullXmlData m.ref = some part ∧ toLowerCase part.tagName = "way") :
    ∀ r, addParts E b ≠ .ok r := by
  intro r
  unfold addParts
  simp only [hkind, if_true, hroot]
  have hmake : ∀ id q, newPart E b id ≠ .ok q := by
    intro id q hq
    rw [newPart_throws] at hq
    cases hq
  cases hm : addMemberParts b.fullXmlData (newPart E b) (newMultiPart E b)
      (querySelectorAllMembers root "part") b.parts with
  | error e => simp
  | ok parts => exact absurd hm (addMemberParts_way _ _ _ hmake _ h _ _)

/-- For a building that is not of kind "relation", in a document with a way that has a
tag with key `building:part`, `addParts` does not end normally: the constructor of that
part throws. -/
theorem addParts_tagged_way (E : Env R) (b : Building R)
    (hkind : b.type ≠ some .relation)
    (h : ∃ e ∈ getElementsByTagName b.fullXmlData "way",
      (querySelectorK e "building:part").isSome = true) :
    ∀ r, addParts E b ≠ .ok r := by
  intro r
  unfold addParts
  simp only [hkind, if_false]
  have hmake : ∀ id q, newPart E b id ≠ .ok q := by
    intro id q hq
    rw [newPart_throws] at hq
    cases hq
  cases hm : addTaggedParts (newPart E b) (getElementsByTagName b.fullXmlData "way")
      b.parts with
  | error e => simp
  | ok parts => exact absurd hm (addTaggedParts_tagged _ hmake _ h _ _)

/-- The assembly of a building whose root is a way does not end normally: the
constructor of the outer element throws. -/
theorem assemble_way_root (E : Env R) (b : Building R) (root : Element)
    (hway : toLowerCase root.tagName = "way") : ∀ r, assemble E b root ≠ .ok r := by
  intro r
  unfold assemble
  simp only
  split
  · simp
  · simp only [makeOuterElement, makeOuterElementWith, hway, if_true, create_throws]
    simp

/-- The part members of a root relation that is a multipolygon are not consulted:
relation 30 of `multiPartDoc` has a member of role "part", and the parts list of the
building stays empty. -/
theorem multipolygon_part_members_ignored :
    (construct testEnv 4 "30" multiPartDoc).result.map
      (fun b => (b.type, b.parts.map (fun p => p.id))) = some (some .multipolygon, []) := by
  decide

/-- C15, at a failing input: relation 20 of `partsDoc`, whose part members are the way
11 and the relation 12, passes `isValidData`; the constructor ends with a `TypeError`
and returns no building; and `addParts`, run on the building with an outer element in
place, ends with a `TypeError` too, instead of a parts list with the two entries. -/
theorem C15_way_part_throws :
    (getElementById partsDoc "20").bind (isValidData partsDoc 4) = some true ∧
    (construct testEnv 4 "20" partsDoc).thrown = some .typeError ∧
    (construct testEnv 4 "20" partsDoc).result.isNone = true ∧
    partsBuilding.outerElement.isSome = true ∧
    BuildingPart.thrownBy (addParts testEnv partsBuilding) = some .typeError := by
  decide

/-- C16, at a failing input: the way 10 of `scanDoc`, a document with the ways 11 and
14 and the relation 13 tagged `building:part`, passes `isValidData`; the constructor
ends with a `TypeError` and returns no building; `addParts`, run on the building with an
outer element in place, ends with a `TypeError` too; and `setOptions` on the part for
way 11, were it built, ends with a `ReferenceError`. -/
theorem C16_tagged_part_throws :
    (getElementById scanDoc "10").bind (isValidData scanDoc 4) = some true ∧
    (construct testEnv 4 "10" scanDoc).thrown = some .typeError ∧
    (construct testEnv 4 "10" scanDoc).result.isNone = true ∧
    scanBuilding.outerElement.isSome = true ∧
    BuildingPart.thrownBy (addParts testEnv scanBuilding) = some .typeError ∧
    (BuildingPart.setOptions testEnv
      (freshPart (way "11" [tag "building:part" "yes"] ["1", "2", "3", "1"])
        (.parent tallParent))).thrown = some .referenceError := by
  decide

/-- C17, at a failing input: for the building way 10 of `levelsDoc` the constructor ends
with a `TypeError` and returns no building, so no outer element and no part exists. On
an object that has an `options` object, lines 53-62 leave an outer element whose
inherited tier is its own `blankOptions` object, which `setOptions` has overwritten: it
holds the resolved values (`roof.shape` "flat", `building.levels` "3"), not `null`
throughout; the resolved `building.colour` is `undefined`, where a set that is `null`
throughout, inherited as a separate object, gives `null`. -/
theorem C17_outer_inherits_resolved :
    (construct testEnv 4 "10" levelsDoc).thrown = some .typeError ∧
    (construct testEnv 4 "10" levelsDoc).result.isNone = true ∧
    (BuildingPart.initialise testEnv "10" levelsDoc (buildNodeList levelsDoc) none).toOption.map
      (fun p => (p.options.inherited, (p.deref p.options.inherited).roof.shape,
        (p.deref p.options.inherited).building.levels,
        p.optionsBuilding.map (fun g => g.colour))) =
      some (.blank, .str "flat", .str "3", some .undefined) ∧
    (BuildingPart.setOptions testEnv
      (freshPart (way "10" [tag "building" "yes", tag "building:levels" "3"]
        ["1", "2", "3", "4", "1"]) (.parent blankOptions))).state.optionsBuilding.map
      (fun g => g.colour) = some .null := by
  decide

end PartsProps

/-! ## Extrusion and roof geometry (`createBuilding`, `PyramidGeometry`) -/

section RoofProps
variable {R : Type} [LinearOrderedField R]
open BuildingPart PyramidGeometry

omit [LinearOrderedField R] in
/-- A sum with `NaN` on the right is `NaN`. -/
theorem JSNumber.add_nan [LinearOrderedField R] (a : JSNumber R) : a.add .nan = .nan := by
  cases a <;> rfl

omit [LinearOrderedField R] in
/-- A sum with `NaN` on the left is `NaN`. -/
theorem JSNumber.nan_add [LinearOrderedField R] (b : JSNumber R) :
    (JSNumber.nan : JSNumber R).add b = .nan := by
  cases b <;> rfl

/-- The extrusion depth of `createBuilding` is `NaN` for every part whose options are
set: the subtrahend `this.options.roof.minHeight` is undefined. -/
theorem createBuilding_depth_nan (E : Env R) (p : BuildingPart R) (s : ExtrudeSettings R)
    (h : createBuilding E p = .ok s) : s.depth = .num .nan := by
  unfold createBuilding at h
  split at h
  · cases h
    simp only [JSValue.minus, roofMinHeight, JSValue.toNumber, JSNumber.sub, JSNumber.neg,
      JSNumber.add_nan, JSNumber.nan_add]
  · cases h

/-- C18, at a failing input: for a part that resolves to a flat roof, a building height
of 10 and a base height of 2, the extrusion depth `createBuilding` computes is `NaN`,
not 10 - 2 = 8. -/
theorem C18_flat_extrusion_nan :
    (setOptions testEnv flatPart).state.optionsView.map
      (fun o => (o.roof.shape, o.building.height, o.building.minHeight)) =
      some (.str "flat", .num (.fin 10), .num (.fin 2)) ∧
    (createBuilding testEnv (setOptions testEnv flatPart).state).toOption.map
      (fun s => s.depth) = some (.num .nan) := by
  decide

/-- The loop of the constructor appends nine coordinates per step: those of the triangle
on the next two consecutive points. -/
theorem pushTriangles_spec (options : Options R) (points : List (Point R)) (steps i : Nat)
    (acc : List (JSValue R)) (hlen : i + steps + 1 ≤ points.length ∨ steps = 0) :
    ∃ s, pushTriangles options points steps i acc = acc ++ s ∧ s.length = 9 * steps ∧
      ∀ j, j < steps → ∀ p q, points.get? (i + j) = some p → points.get? (i + j + 1) = some q →
        (s.drop (9 * j)).take 9 =
          [.num p.1, .num p.2, .num (.fin 0), options.center.1, options.center.2,
            options.depth, .num q.1, .num q.2, .num (.fin 0)] := by
  induction steps generalizing i acc with
  | zero => exact ⟨[], by simp [pushTriangles], rfl, fun j hj => absurd hj (by omega)⟩
  | succ n ih =>
    have hlen' : i + (n + 1) + 1 ≤ points.length := by
      rcases hlen with h | h
      · exact h
      · omega
    have hi : i < points.length := by omega
    have hi1 : i + 1 < points.length := by omega
    obtain ⟨s, hs, hsl, hsp⟩ := ih (i + 1)
      (acc ++ [.num (points.get ⟨i, hi⟩).1, .num (points.get ⟨i, hi⟩).2, .num (.fin 0),
        options.center.1, options.center.2, options.depth,
        .num (points.get ⟨i + 1, hi1⟩).1, .num (points.get ⟨i + 1, hi1⟩).2, .num (.fin 0)])
      (Or.inl (by omega))
    refine ⟨[.num (points.get ⟨i, hi⟩).1, .num (points.get ⟨i, hi⟩).2, .num (.fin 0),
        options.center.1, options.center.2, options.depth,
        .num (points.get ⟨i + 1, hi1⟩).1, .num (points.get ⟨i + 1, hi1⟩).2, .num (.fin 0)] ++ s,
      ?_, ?_, ?_⟩
    · unfold pushTriangles
      rw [List.get?_eq_get hi, List.get?_eq_get hi1]
      simp only [hs, List.append_assoc]
    · simp only [List.length_append, List.length_cons, List.length_nil, hsl]
      omega
    · intro j hj p q hp hq
      cases j with
      | zero =>
        simp only [Nat.add_zero] at hp hq
        rw [List.get?_eq_get hi] at hp
        rw [List.get?_eq_get hi1] at hq
        cases hp
        cases hq
        simp
      | succ k =>
        have hk : k < n := by omega
        have := hsp k hk p q (by rw [← hp]; congr 1; omega) (by rw [← hq]; congr 1; omega)
        rw [← this]
        have h9 : 9 * (k + 1) = 9 + 9 * k := by ring
        rw [h9, ← List.drop_drop]
        simp

/-- C19: for a footprint with n extracted points, `PyramidGeometry` iterates over a list
of the same n points and emits 9 * (n - 1) position coordinates, that is n - 1
triangles; triangle i has the vertices (p_i.x, p_i.y, 0), (centre.x, centre.y, depth),
(p_(i+1).x, p_(i+1).y, 0) over that list, so every apex is the centre at height
`depth`. -/
theorem C19_pyramid_fan (shape : Shape R) (options : Options R) :
    (loopPoints shape.points).length = shape.points.length ∧
    (positions shape options).length = 9 * (shape.points.length - 1) ∧
    ∀ i p q, (loopPoints shape.points).get? i = some p →
      (loopPoints shape.points).get? (i + 1) = some q →
      ((positions shape options).drop (9 * i)).take 9 =
        [.num p.1, .num p.2, .num (.fin 0), options.center.1, options.center.2,
          options.depth, .num q.1, .num q.2, .num (.fin 0)] := by
  have hl : (loopPoints shape.points).length = shape.points.length := by
    unfold loopPoints
    simp only
    split <;> simp
  obtain ⟨s, hs, hsl, hsp⟩ := pushTriangles_spec options (loopPoints shape.points)
    ((loopPoints shape.points).length - 1) 0 [] (by omega)
  refine ⟨hl, ?_, ?_⟩
  · show (pushTriangles options (loopPoints shape.points)
      ((loopPoints shape.points).length - 1) 0 []).length = _
    rw [hs, List.nil_append, hsl, hl]
  · intro i p q hp hq
    show ((pushTriangles options (loopPoints shape.points)
      ((loopPoints shape.points).length - 1) 0 []).drop (9 * i)).take 9 = _
    rw [hs, List.nil_append]
    have hi : i + 1 < (loopPoints shape.points).length := by
      rcases Nat.lt_or_ge (i + 1) (loopPoints shape.points).length with h | h
      · exact h
      · rw [List.get?_eq_none.2 h] at hq
        cases hq
    exact hsp i (by omega) p q (by simpa using hp) (by simpa using hq)

end RoofProps

section Winding
variable {R : Type} [LinearOrderedField R]
open PyramidGeometry ShapeUtils

/-- The loop of `area` on finite points. -/
theorem areaLoop_fin (p : R × R) (qs : List (R × R)) (a : R) :
    areaLoop (finPoint p) (qs.map finPoint) (.fin a) = .fin (a + pathCross p qs) := by
  induction qs generalizing p a with
  | nil => simp [areaLoop, pathCross]
  | cons q rest ih =>
    simp only [List.map_cons, areaLoop, cross, finPoint, JSNumber.mul, JSNumber.sub,
      JSNumber.neg, JSNumber.add]
    have := ih q (a + (p.1 * q.2 + -(q.1 * p.2)))
    simp only [finPoint] at this
    rw [this, pathCross]
    congr 1
    ring

/-- Extending a path by one point adds the term of the new edge. -/
theorem pathCross_append (p : R × R) (l : List (R × R)) (a : R × R) :
    pathCross p (l ++ [a]) =
      pathCross p l + (((p :: l).getLast (by simp)).1 * a.2 - a.1 * ((p :: l).getLast (by simp)).2) := by
  induction l generalizing p with
  | nil => simp [pathCross]
  | cons q rest ih =>
    have hl : (p :: q :: rest).getLast (by simp) = (q :: rest).getLast (by simp) :=
      List.getLast_cons (by simp)
    show pathCross p (q :: (rest ++ [a])) = _
    rw [pathCross, ih q, pathCross, hl]
    ring

/-- The closed walk of `THREE.ShapeUtils.area` is the shoelace sum. -/
theorem pathCross_last_eq_shoelace (p : R × R) (rest : List (R × R)) :
    pathCross ((p :: rest).getLast (by simp)) (p :: rest) = shoelace (p :: rest) := by
  have hz : ∀ (q : R × R) (l : List (R × R)) (a : R × R),
      (List.zipWith (fun a b => a.1 * b.2 - b.1 * a.2) (q :: l) (l ++ [a])).sum =
        pathCross q (l ++ [a]) := by
    intro q l
    induction l generalizing q with
    | nil => intro a; simp [pathCross]
    | cons x xs ih =>
      intro a
      rw [List.cons_append, List.zipWith_cons_cons, List.sum_cons, ih x a]
      rfl
  rw [shoelace, hz p rest p, pathCross_append, pathCross]
  ring

/-- On finite points `THREE.ShapeUtils.area` is half the shoelace sum. -/
theorem area_fin (ps : List (R × R)) :
    area (ps.map finPoint) = .fin (shoelace ps * (1 / 2)) := by
  cases ps with
  | nil => simp [area, shoelace, JSNumber.mul]
  | cons p rest =>
    have hlast : ((p :: rest).map finPoint).getLast? =
        some (finPoint ((p :: rest).getLast (by simp))) := by
      rw [List.getLast?_map, List.getLast?_eq_getLast _ (by simp)]
      rfl
    unfold area
    rw [hlast]
    simp only
    rw [areaLoop_fin, zero_add, pathCross_last_eq_shoelace]
    rfl

/-- On finite points `isClockWise` tells whether the shoelace sum is negative. -/
theorem isClockWise_fin (ps : List (R × R)) :
    isClockWise (ps.map finPoint) = decide (shoelace ps < 0) := by
  unfold isClockWise
  rw [area_fin]
  simp only [JSNumber.lt]
  congr 1
  apply propext
  constructor
  · intro h; nlinarith
  · intro h; nlinarith


/-- The shoelace sum is the sum along the open path plus the closing edge. -/
theorem shoelace_eq_pathSum (l : List (R × R)) (hl : l ≠ []) :
    shoelace l = pathSum l + ((l.getLast hl).1 * (l.head hl).2 - (l.head hl).1 * (l.getLast hl).2) := by
  cases l with
  | nil => exact absurd rfl hl
  | cons p rest =>
    rw [← pathCross_last_eq_shoelace, pathCross, pathSum]
    simp only [List.head_cons]
    ring

/-- Extending an open path by one point. -/
theorem pathSum_append (l : List (R × R)) (hl : l ≠ []) (a : R × R) :
    pathSum (l ++ [a]) = pathSum l + ((l.getLast hl).1 * a.2 - a.1 * (l.getLast hl).2) := by
  cases l with
  | nil => exact absurd rfl hl
  | cons p rest =>
    show pathCross p (rest ++ [a]) = _
    rw [pathCross_append]
    rfl

/-- Reversing an open path negates its sum. -/
theorem pathSum_reverse (l : List (R × R)) : pathSum l.reverse = -pathSum l := by
  induction l with
  | nil => simp [pathSum]
  | cons a rest ih =>
    cases rest with
    | nil => simp [pathSum, pathCross]
    | cons b r =>
      have hne : (b :: r).reverse ≠ [] := by simp
      rw [List.reverse_cons, pathSum_append _ hne, ih]
      have hlast : (b :: r).reverse.getLast hne = b := by
        rw [List.getLast_reverse]
        rfl
      rw [hlast]
      simp only [pathSum, pathCross]
      ring

/-- Reversing a polygon negates its shoelace sum. -/
theorem shoelace_reverse (l : List (R × R)) : shoelace l.reverse = -shoelace l := by
  by_cases hl : l = []
  · subst hl; simp [shoelace]
  · have hr : l.reverse ≠ [] := by simpa using hl
    rw [shoelace_eq_pathSum _ hr, shoelace_eq_pathSum _ hl, pathSum_reverse,
      List.getLast_reverse, List.head_reverse]
    ring

/-- C20, amended: `PyramidGeometry` normalizes the winding to clockwise: for every
footprint point list with finite coordinates and non-zero signed area, the list the
triangle loop iterates over is the input or its reversal and has negative shoelace
signed area, whatever the winding of the input. -/
theorem C20_winding_clockwise (ps : List (R × R)) (hne : shoelace ps ≠ 0) :
    ∃ qs : List (R × R), loopPoints (ps.map finPoint) = qs.map finPoint ∧
      shoelace qs < 0 ∧ (qs = ps ∨ qs = ps.reverse) := by
  unfold loopPoints
  simp only [isClockWise_fin]
  by_cases h : shoelace ps < 0
  · exact ⟨ps, by simp [h], h, Or.inl rfl⟩
  · refine ⟨ps.reverse, by simp [h], ?_, Or.inr rfl⟩
    rw [shoelace_reverse]
    have : 0 < shoelace ps := lt_of_le_of_ne (not_lt.1 h) (Ne.symm hne)
    linarith

/-- The shoelace sum of the unit square. -/
theorem shoelace_unitSquare : shoelace unitSquare = 2 := by
  norm_num [shoelace, unitSquare]

/-- C20, as stated, fails at the counter-clockwise unit square (shoelace sum 2): the
triangle loop iterates over its reversal, whose shoelace sum is -2, not positive. -/
theorem C20_square_made_clockwise :
    shoelace unitSquare = 2 ∧
    loopPoints (unitSquare.map finPoint) = unitSquare.reverse.map finPoint ∧
    shoelace unitSquare.reverse = -2 := by
  refine ⟨shoelace_unitSquare, ?_, ?_⟩
  · unfold loopPoints
    rw [isClockWise_fin, shoelace_unitSquare]
    norm_num
  · rw [shoelace_reverse, shoelace_unitSquare]

/-- C20 at the unit square. -/
theorem C20_winding_clockwise_witness :
    ∃ qs : List (ℚ × ℚ), loopPoints (unitSquare.map finPoint) = qs.map finPoint ∧
      shoelace qs < 0 ∧ (qs = unitSquare ∨ qs = unitSquare.reverse) :=
  C20_winding_clockwise unitSquare (by rw [shoelace_unitSquare]; norm_num)


/-- The triangle loop iterates over the reversal of the closed square. -/
theorem loopPoints_closedSquare :
    loopPoints squareShape.points = closedSquare.reverse.map finPoint := by
  have h : shoelace closedSquare = 8 := by norm_num [shoelace, closedSquare]
  unfold loopPoints squareShape
  rw [isClockWise_fin, h]
  norm_num

/-- C19 at the closed square with centre (1, 1) and roof height 3: five points, four
triangles, the first on (0,0) and (0,2) with its apex at height 3. -/
theorem C19_pyramid_fan_witness :
    (PyramidGeometry.positions squareShape apexOptions).length = 36 ∧
    ((PyramidGeometry.positions squareShape apexOptions).drop (9 * 0)).take 9 =
      [.num (.fin 0), .num (.fin 0), .num (.fin 0), .num (.fin 1), .num (.fin 1),
        .num (.fin 3), .num (.fin 0), .num (.fin 2), .num (.fin 0)] :=
  ⟨(C19_pyramid_fan squareShape apexOptions).2.1.trans (by decide),
   (C19_pyramid_fan squareShape apexOptions).2.2 0 (finPoint (0, 0)) (finPoint (0, 2))
    (by rw [loopPoints_closedSquare]; rfl) (by rw [loopPoints_closedSquare]; rfl)⟩

end Winding

/-! ## Unresolved part members in the assembly -/

section Dangling
variable {R : Type} [LinearOrderedField R]
open Building

/-- For a building of kind "relation", `addParts` cannot end normally when a member of
role "part" does not resolve, whatever the environment. -/
theorem addParts_dangling (E : Env R) (b : Building R) (root : Element)
    (hkind : b.type = some .relation)
    (hroot : getElementById b.fullXmlData b.id = some root)
    (hd : ∃ m ∈ querySelectorAllMembers root "part", getElementById b.fullXmlData m.ref = none) :
    ∀ b', addParts E b ≠ .ok b' := by
  intro b' h
  unfold addParts at h
  simp only [hkind, if_true, hroot] at h
  split at h
  · cases h
  · rename_i parts hp
    exact addMemberParts_dangling _ _ _ _ hd _ _ hp

/-- The constructor never returns an assembled building for a root of kind "relation"
that has a member of role "part" which does not resolve: if it returns at all, the data
was judged invalid. -/
theorem construct_dangling (E : Env R) (fuel : Nat) (id : String) (doc : Document)
    (root : Element) (t : Tag) (hroot : getElementById doc id = some root)
    (hnot : ¬ toLowerCase root.tagName = "way") (ht : querySelectorK root "type" = some t)
    (hv : ¬ t.v = "multipolygon")
    (hd : ∃ m ∈ querySelectorAllMembers root "part", getElementById doc m.ref = none)
    (b : Building R) (h : construct E fuel id doc = .done b) :
    isValidData doc fuel root = some false := by
  unfold construct at h
  simp only [hroot, classify, hnot, if_false, ht, hv] at h
  split at h
  · cases h
  · rename_i hval; exact hval
  · exfalso
    split at h
    · cases h
    · rename_i b2 h2
      unfold assemble at h2
      simp only at h2
      split at h2
      · cases h2
      · rename_i b1 h1
        split at h2
        · cases h2
        · rename_i outer h3
          have hf := setHome_frame E _ _ h1
          simp only [initial] at hf
          refine addParts_dangling E _ root ?_ ?_ ?_ _ h2
          · simp only [hf.1]
          · simp only [hf.2.1, hf.2.2.1, hroot]
          · simpa only [hf.2.2.1] using hd

end Dangling

/-! ## Operations on a built part (`createRoof`, `calculateRadius`, `getInfo`) -/

section PartOperations
variable {R : Type} [LinearOrderedField R]

open Building BuildingPart

omit [LinearOrderedField R] in
/-- The assignment to `roof.height` leaves the `building` group as it is. -/
theorem writeRoofHeight_building (p : BuildingPart R) (v : JSValue R) :
    (writeRoofHeight p v).optionsBuilding = p.optionsBuilding := by
  unfold writeRoofHeight optionsBuilding
  cases hr : p.options.roof with
  | none => rfl
  | some ref =>
    cases ref with
    | blank =>
      cases hb : p.options.building with
      | none => simp [hb]
      | some ref2 => cases ref2 <;> simp [hb, deref]
    | parent o =>
      cases hb : p.options.building with
      | none => simp [hb]
      | some ref2 => cases ref2 <;> simp [hb, deref]

omit [LinearOrderedField R] in
/-- The assignment to `roof.height` changes that entry of the `roof` group and no
other. -/
theorem writeRoofHeight_roof (p : BuildingPart R) (v : JSValue R) (r : RoofOptions R)
    (h : p.optionsRoof = some r) :
    (writeRoofHeight p v).optionsRoof = some { r with height := v } := by
  unfold writeRoofHeight
  unfold optionsRoof at h
  cases hr : p.options.roof with
  | none => rw [hr] at h; cases h
  | some ref =>
    rw [hr] at h
    cases ref with
    | blank =>
      simp only [Option.map_some', deref, Option.some.injEq] at h
      subst h
      simp [optionsRoof, hr, deref]
    | parent o =>
      simp only [Option.map_some', deref, Option.some.injEq] at h
      subst h
      simp [optionsRoof, deref]

/-- C21, as stated, fails: the part state that `setOptions` leaves for a way tagged
`roof:shape=onion` and `roof:height=0` over a square of side 4 has `options.roof.height`
0, and 2, the value of `calculateRadius()`, after `createRoof()`, which ends normally. -/
theorem C21_onion_roof_height_written :
    onionPart.optionsRoof.map (fun r => (r.shape, r.height)) =
      some (.str "onion", .num (.fin 0)) ∧
    (perform testEnv .createRoof onionPart).state.optionsRoof.map (fun r => r.height) =
      some (.num (.fin 2)) ∧
    (perform testEnv .createRoof onionPart).thrown = none := by
  decide!

/-- The state `createRoof()` leaves: the part as it was, except in the "onion" branch
when `roof.height` is 0. -/
theorem createRoof_state (E : Env R) (p : BuildingPart R) :
    (createRoof E p).state = p ∨
      ∃ r radius, p.optionsRoof = some r ∧ r.shape = .str "onion" ∧
        r.height = .num (.fin 0) ∧ calculateRadius E p = .ok radius ∧
        (createRoof E p).state = writeRoofHeight p (.num radius) := by
  unfold createRoof
  simp only
  split
  · exact Or.inl rfl
  · rename_i r hr
    by_cases h1 : r.shape = .str "flat"
    · rw [if_pos h1]; exact Or.inl rfl
    rw [if_neg h1]
    by_cases h2 : r.shape = .str "dome"
    · rw [if_pos h2]; exact Or.inl rfl
    rw [if_neg h2]
    by_cases h3 : r.shape = .str "skillion"
    · rw [if_pos h3]; exact Or.inl rfl
    rw [if_neg h3]
    by_cases h4 : r.shape = .str "onion"
    · rw [if_pos h4]
      split
      · exact Or.inl rfl
      · rename_i radius hc
        by_cases h5 : r.height = .num (.fin 0)
        · rw [if_pos h5]
          exact Or.inr ⟨r, radius, hr, h4, h5, hc, rfl⟩
        · rw [if_neg h5]; exact Or.inl rfl
    rw [if_neg h4]
    by_cases h6 : r.shape = .str "gabled"
    · rw [if_pos h6]; exact Or.inl rfl
    rw [if_neg h6]
    by_cases h7 : r.shape = .str "pyramidal"
    · rw [if_pos h7]; exact Or.inl rfl
    rw [if_neg h7]
    exact Or.inl rfl

/-- C21, amended: none of the operations `createRoof`, `createBuilding`, `render`,
`getWidth`, `calculateRadius`, `calculateHeight`, `calculateMinHeight`, `getInfo` changes
a field of `options.building`. `createRoof` on a part whose resolved `roof.shape` is
"onion" and whose `roof.height` is 0 assigns the value `calculateRadius()` returns to
`roof.height` and leaves the other fields of `options.roof`; in every other case, and
for every other operation, `options.roof` is unchanged. -/
theorem C21_options_frame (E : Env R) (op : Operation) (p : BuildingPart R) :
    (perform E op p).state.optionsBuilding = p.optionsBuilding ∧
    (∀ r radius, op = .createRoof → p.optionsRoof = some r → r.shape = .str "onion" →
      r.height = .num (.fin 0) → calculateRadius E p = .ok radius →
      (perform E op p).state.optionsRoof = some { r with height := .num radius }) ∧
    (¬ (op = .createRoof ∧ ∃ r radius, p.optionsRoof = some r ∧ r.shape = .str "onion" ∧
        r.height = .num (.fin 0) ∧ calculateRadius E p = .ok radius) →
      (perform E op p).state.optionsRoof = p.optionsRoof) := by
  cases op with
  | createRoof =>
    show (createRoof E p).state.optionsBuilding = p.optionsBuilding ∧
      (∀ r radius, _ → p.optionsRoof = some r → r.shape = .str "onion" →
        r.height = .num (.fin 0) → calculateRadius E p = .ok radius →
        (createRoof E p).state.optionsRoof = some { r with height := .num radius }) ∧
      (_ → (createRoof E p).state.optionsRoof = p.optionsRoof)
    rcases createRoof_state E p with h | ⟨r, radius, hr, hs, hh, hc, hst⟩
    · refine ⟨by rw [h], ?_, fun _ => by rw [h]⟩
      intro r radius _ hr hs hh hc
      have hst : (createRoof E p).state = writeRoofHeight p (.num radius) := by
        unfold createRoof
        simp only [hr, hs, hh, hc]
        simp
      rw [hst]
      exact writeRoofHeight_roof p _ r hr
    · refine ⟨by rw [hst]; exact writeRoofHeight_building p _, ?_, ?_⟩
      · intro r2 radius2 _ hr2 _ _ hc2
        rw [hr] at hr2
        cases hr2
        rw [hc] at hc2
        cases hc2
        rw [hst]
        exact writeRoofHeight_roof p _ r hr
      · intro hn
        exact absurd ⟨rfl, r, radius, hr, hs, hh, hc⟩ hn
  | createBuilding => exact ⟨rfl, fun _ _ h => (by cases h), fun _ => rfl⟩
  | render => exact ⟨rfl, fun _ _ h => (by cases h), fun _ => rfl⟩
  | getWidth => exact ⟨rfl, fun _ _ h => (by cases h), fun _ => rfl⟩
  | calculateRadius => exact ⟨rfl, fun _ _ h => (by cases h), fun _ => rfl⟩
  | calculateHeight => exact ⟨rfl, fun _ _ h => (by cases h), fun _ => rfl⟩
  | calculateMinHeight => exact ⟨rfl, fun _ _ h => (by cases h), fun _ => rfl⟩
  | getInfo => exact ⟨rfl, fun _ _ h => (by cases h), fun _ => rfl⟩

/-- C21, amended, at the onion part over the square of side 4: `createRoof` changes
`roof.height` from 0 to 2 and nothing else in `options.roof`, `getInfo` changes nothing,
and `options.building` stays in both cases. -/
theorem C21_options_frame_witness :
    (perform testEnv .createRoof onionPart).state.optionsRoof =
      some { onionPart.blankOptions.roof with height := .num (.fin 2) } ∧
    (perform testEnv .getInfo onionPart).state.optionsRoof = onionPart.optionsRoof ∧
    (perform testEnv .createRoof onionPart).state.optionsBuilding =
      onionPart.optionsBuilding := by
  have hr : onionPart.optionsRoof = some onionPart.blankOptions.roof := by decide
  have hc : (calculateRadius testEnv onionPart).toOption = some (.fin 2) := by decide!
  cases hcr : calculateRadius testEnv onionPart with
  | error e => rw [hcr] at hc; cases hc
  | ok radius =>
    rw [hcr] at hc
    simp only [Except.toOption, Option.some.injEq] at hc
    subst hc
    exact ⟨(C21_options_frame testEnv .createRoof onionPart).2.1 _ _ rfl hr (by decide)
        (by decide) hcr,
      (C21_options_frame testEnv .getInfo onionPart).2.2 (fun h => by cases h.1),
      (C21_options_frame testEnv .createRoof onionPart).1⟩

end PartOperations

section InfoProps
variable {R : Type}

open Building BuildingPart

/-- The loop that pushes one entry per element builds the mapped list, in order. -/
theorem foldl_push_map {α β : Type} (f : α → β) (l : List α) (acc : List β) :
    l.foldl (fun infos a => infos ++ [f a]) acc = acc ++ l.map f := by
  induction l generalizing acc with
  | nil => simp
  | cons a rest ih => simp [ih]

/-- C22: for every building that has an outer element (the constructor stores it only
for valid data), `getInfo()` returns an object whose `id` and `type` are those of the
building, whose `options` hold the four entries of the options of the outer element, and
whose `parts` has the length and the order of `this.parts`, entry `i` being
`parts[i].getInfo()`; the object a part returns carries the id, the type and the four
entries of the options of the part, and an empty `parts` list. -/
theorem C22_getInfo_snapshot (b : Building R) (outer : BuildingPart R)
    (ho : b.outerElement = some outer) :
    ∃ info o, Building.getInfo b = .ok info ∧ info.id = b.id ∧
      (b.type = none → info.type = none) ∧ (b.type = some .way → info.type = some "way") ∧
      (b.type = some .multipolygon → info.type = some "multipolygon") ∧
      (b.type = some .relation → info.type = some "relation") ∧
      info.options = some o ∧ o.building = outer.optionsBuilding ∧
      o.roof = outer.optionsRoof ∧ o.inherited = outer.deref outer.options.inherited ∧
      o.specified = outer.options.specified.map outer.deref ∧
      info.parts.length = b.parts.length ∧
      (∀ i (h : i < b.parts.length), info.parts[i]? = some (b.parts.get ⟨i, h⟩).getInfo) ∧
      ∀ p ∈ b.parts, p.getInfo.id = p.id ∧ p.getInfo.type = some p.type ∧
        p.getInfo.parts = [] ∧
        ∃ q, p.getInfo.options = some q ∧ q.building = p.optionsBuilding ∧
          q.roof = p.optionsRoof ∧ q.inherited = p.deref p.options.inherited ∧
          q.specified = p.options.specified.map p.deref := by
  refine ⟨{ id := b.id, type := b.type.map kindName, options := some outer.optionsObject,
            parts := b.parts.map BuildingPart.getInfo }, outer.optionsObject, ?_, rfl, ?_, ?_,
          ?_, ?_, rfl, rfl, rfl, rfl, rfl, ?_, ?_, ?_⟩
  · unfold Building.getInfo
    simp only [ho]
    rw [foldl_push_map]
    rfl
  · intro h; rw [h]; rfl
  · intro h; rw [h]; rfl
  · intro h; rw [h]; rfl
  · intro h; rw [h]; rfl
  · simp
  · intro i h
    simp [List.getElem?_map, List.getElem?_eq_getElem h]
  · intro p _
    exact ⟨rfl, rfl, rfl, p.optionsObject, rfl, rfl, rfl, rfl, rfl⟩

/-- C22 at a building state of kind "relation" with the id "20", an outer element and
the parts 11 and 14: the object has the id "20", the type "relation", the resolved
`roof.shape` "flat" of the outer element, and one entry per part, in order. -/
theorem C22_getInfo_snapshot_witness :
    (∃ info o, Building.getInfo infoBuilding = .ok info ∧ info.id = "20" ∧
      info.type = some "relation" ∧ info.options = some o ∧
      o.roof.map (fun r => r.shape) = some (.str "flat") ∧
      info.parts.map (fun i => i.id) = ["11", "14"] ∧
      info.parts.map (fun i => i.parts.length) = [0, 0]) := by
  obtain ⟨info, o, hinfo, hid, -, -, -, hty, hopt, -, hroof, -, -, hlen, hget, -⟩ :=
    C22_getInfo_snapshot infoBuilding _ rfl
  refine ⟨info, o, hinfo, hid, hty rfl, hopt, ?_, ?_, ?_⟩
  · rw [hroof]; decide
  · have h0 := hget 0 (by decide)
    have h1 := hget 1 (by decide)
    have hl : info.parts.length = 2 := hlen
    match hp : info.parts, hl with
    | [x, y], _ =>
      rw [hp] at h0 h1
      simp only [List.getElem?_cons_zero, List.getElem?_cons_succ, Option.some.injEq] at h0 h1
      subst h0 h1
      decide
  · have h0 := hget 0 (by decide)
    have h1 := hget 1 (by decide)
    have hl : info.parts.length = 2 := hlen
    match hp : info.parts, hl with
    | [x, y], _ =>
      rw [hp] at h0 h1
      simp only [List.getElem?_cons_zero, List.getElem?_cons_succ, Option.some.injEq] at h0 h1
      subst h0 h1
      decide

end InfoProps

section DegenerateExtents
variable {R : Type} [LinearOrderedField R]

open Building

/-- C23, as stated, fails: with the single entry ("abc", "7") in the node table the
extents of relation 20 of `strayDoc` are [NaN, 7, NaN, 7], so the table is not empty and
`left <= right` is false; and for a relation without a tag of key "type" `getExtents`
ends with a `TypeError`. -/
theorem C23_nan_extents_unordered :
    (getExtents testEnv "20" strayDoc [("1", (.str "abc", .str "7"))]).toOption =
      some (some { left := .nan, bottom := .fin 7, right := .nan, top := .fin 7 }) ∧
    (getExtents testEnv "20" strayDoc [("1", (.str "abc", .str "7"))]).toOption.map
      (fun x => x.map (fun e => (e.left.le e.right, e.bottom.le e.top))) =
      some (some (false, true)) ∧
    BuildingPart.thrownBy (getExtents testEnv "1" untypedDoc []) = some .typeError := by
  decide

/-- C23, amended: for a relation with a tag of key "type" whose value is not
"multipolygon" and a node table whose coordinates are finite numbers, the extents
`getExtents` returns satisfy left ≤ right and bottom ≤ top if and only if the node table
is not empty; for the empty table they are the seed [180, 90, -180, -90]. -/
theorem C23_relation_extents_ordered (E : Env R) (id : String) (doc : Document)
    (nodelist : NodeList R) (root : Element) (t : Tag) (pts : List (R × R))
    (hroot : getElementById doc id = some root)
    (htag : toLowerCase root.tagName = "relation")
    (ht : querySelectorK root "type" = some t) (hv : t.v ≠ "multipolygon")
    (hfin : nodelist.map (fun e => (e.2.1.toNumber E.toBuiltins, e.2.2.toNumber E.toBuiltins)) =
      pts.map (fun p => (JSNumber.fin p.1, JSNumber.fin p.2))) :
    ∃ r : Box R, getExtents E id doc nodelist = .ok (some (finBox r)) ∧
      ((r.left ≤ r.right ∧ r.bottom ≤ r.top) ↔ nodelist ≠ []) ∧
      (nodelist = [] → r = { left := 180, bottom := 90, right := -180, top := -90 }) := by
  let seed : Box R := { left := 180, bottom := 90, right := -180, top := -90 }
  let boxes := pts.map (fun p => ({ left := p.1, bottom := p.2, right := p.1, top := p.2 } : Box R))
  obtain ⟨hb, -⟩ := fold_union_bounds boxes seed
  have hlen : nodelist.length = pts.length := by
    have := congrArg List.length hfin
    simpa using this
  refine ⟨boxes.foldl Box.union seed, ?_, ?_, ?_⟩
  · unfold getExtents
    simp only [hroot, relation_ne_way htag, htag, ht, hv, if_true, if_false]
    unfold nodeExtents
    exact congrArg (fun x => Except.ok (some x)) (nodeExtents_fold E.toBuiltins nodelist pts seed hfin)
  · constructor
    · rintro ⟨h1, -⟩ hnil
      have hp : pts = [] := by
        rw [hnil] at hlen
        exact List.length_eq_zero.1 hlen.symm
      have hbox : boxes = [] := by simp [boxes, hp]
      rw [hbox] at h1
      simp only [List.foldl_nil, seed] at h1
      linarith
    · intro hne
      cases hpts : pts with
      | nil =>
        rw [hpts] at hlen
        exact absurd (List.length_eq_zero.1 hlen) hne
      | cons p ps =>
        have hmem : ({ left := p.1, bottom := p.2, right := p.1, top := p.2 } : Box R) ∈
            seed :: boxes :=
          List.mem_cons_of_mem _ (List.mem_map.2 ⟨p, by rw [hpts]; exact List.mem_cons_self _ _, rfl⟩)
        obtain ⟨h1, h2, h3, h4⟩ := hb _ hmem
        exact ⟨le_trans h1 h3, le_trans h2 h4⟩
  · intro hnil
    have hp : pts = [] := by
      rw [hnil] at hlen
      exact List.length_eq_zero.1 hlen.symm
    simp [boxes, hp, seed]

/-- C23, amended, at the relation of `strayDoc`, with its node table of five nodes and
with an empty node table: the first extents are ordered, the second are the seed and are
not. -/
theorem C23_relation_extents_ordered_witness :
    (∃ r : Box ℚ, getExtents testEnv "20" strayDoc (buildNodeList strayDoc)
        = .ok (some (finBox r)) ∧
      ((r.left ≤ r.right ∧ r.bottom ≤ r.top) ↔ (buildNodeList strayDoc : NodeList ℚ) ≠ []) ∧
      ((buildNodeList strayDoc : NodeList ℚ) = [] →
        r = { left := 180, bottom := 90, right := -180, top := -90 })) ∧
    (∃ r : Box ℚ, getExtents testEnv "20" strayDoc [] = .ok (some (finBox r)) ∧
      ((r.left ≤ r.right ∧ r.bottom ≤ r.top) ↔ ([] : NodeList ℚ) ≠ []) ∧
      (([] : NodeList ℚ) = [] →
        r = { left := 180, bottom := 90, right := -180, top := -90 })) :=
  ⟨C23_relation_extents_ordered testEnv "20" strayDoc (buildNodeList strayDoc)
      (relation "20" [tag "type" "building"] [member "way" "10" "outline"])
      (tag "type" "building") [(0, 0), (2, 0), (2, 2), (0, 2), (50, 60)] (by decide)
      (by decide) (by decide) (by decide) (by decide),
   C23_relation_extents_ordered testEnv "20" strayDoc []
      (relation "20" [tag "type" "building"] [member "way" "10" "outline"])
      (tag "type" "building") [] (by decide) (by decide) (by decide) (by decide) (by decide)⟩

end DegenerateExtents

section RadiusProps

open Building BuildingPart

/-- C24, at a failing input: for the closed way over the triangle (0,0), (4,0), (0,4),
`calculateRadius()` is 2, half the side of the bounding box, yet no disc of radius 2 lies
in the triangle: whatever the centre, one point of the disc is outside. -/
theorem C24_radius_exceeds_triangle :
    (BuildingPart.initialise testEnv "8" triangleDoc wideNodes none).toOption.map
      (fun p => (calculateRadius testEnv p).toOption) = some (some (.fin 2)) ∧
    ∀ c : ℝ × ℝ, ∃ q : ℝ × ℝ, (q.1 - c.1) ^ 2 + (q.2 - c.2) ^ 2 ≤ 2 ^ 2 ∧
      ¬ leftOfEdges [(0, 0), (4, 0), (0, 4), (0, 0)] q := by
  refine ⟨by decide!, ?_⟩
  intro c
  by_cases h1 : c.1 < 2
  · refine ⟨(c.1 - 2, c.2), by norm_num, ?_⟩
    simp only [leftOfEdges]
    intro h
    nlinarith [h.1, h.2.1, h.2.2.1]
  · by_cases h2 : c.2 < 2
    · refine ⟨(c.1, c.2 - 2), by norm_num, ?_⟩
      simp only [leftOfEdges]
      intro h
      nlinarith [h.1, h.2.1, h.2.2.1]
    · refine ⟨(c.1 + 6 / 5, c.2 + 8 / 5), by norm_num, ?_⟩
      simp only [leftOfEdges]
      intro h
      nlinarith [h.1, h.2.1, h.2.2.1]

end RadiusProps

section Divergence

open Building

/-- C25, as stated, fails: the part members of the relation that lists itself as a part
resolve to the relation again, so the loop of `isValidData` appends it at every
iteration; no number of iterations ends it. -/
theorem C25_self_reference_never_ends :
    resolvedParts selfDoc selfRoot = [selfRoot] ∧
      ∀ fuel : Nat, isValidData selfDoc fuel selfRoot = none := by
  have hparts : resolvedParts selfDoc selfRoot = [selfRoot] := by decide
  refine ⟨hparts, ?_⟩
  have hway : ¬ (toLowerCase selfRoot.tagName = "way") := by decide
  have hloop : ∀ fuel : Nat, validateWays selfDoc fuel [selfRoot] = none := by
    intro fuel
    induction fuel with
    | zero => rfl
    | succ n ih =>
      unfold validateWays
      rw [if_neg hway, hparts]
      exact ih
  intro fuel
  unfold isValidData
  have hrel : selfRoot.tagName = "relation" := rfl
  simp only [hrel, if_true, hparts]
  exact hloop fuel

/-- C25, amended: in a finite document whose `role="part"` membership graph has no
cycle, `isValidData` returns true or false for every root element: from some bound on
the iterations of its loop on, the result is the same boolean. -/
theorem C25_isValidData_terminates_acyclic (doc : Document) (root : Element)
    (hac : Acyclic doc) :
    ∃ (N : Nat) (b : Bool), ∀ fuel, N ≤ fuel → isValidData doc fuel root = some b := by
  unfold isValidData
  by_cases hrel : root.tagName = "relation"
  · obtain ⟨N, b, hN, -⟩ := validateWays_total hac (resolvedParts doc root)
    exact ⟨N, b, fun fuel hf => by simp only [hrel, if_true]; exact hN fuel hf⟩
  · by_cases hb : (querySelectorK root "building").isNone = true
    · exact ⟨0, false, fun fuel _ => by simp only [hrel, if_false, hb, if_true]⟩
    · obtain ⟨N, b, hN, -⟩ := validateWays_total hac [root]
      exact ⟨N, b, fun fuel hf => by simp only [hrel, if_false, hb]; exact hN fuel hf⟩

/-- C25, amended, at the root relation of `partsDoc`, whose part members lead to a way
and to a relation without parts: the call returns, and it returns true. -/
theorem C25_isValidData_terminates_acyclic_witness :
    (∃ (N : Nat) (b : Bool),
      ∀ fuel, N ≤ fuel → isValidData partsDoc fuel nestedRootOfParts = some b) ∧
    isValidData partsDoc 4 nestedRootOfParts = some true :=
  ⟨C25_isValidData_terminates_acyclic partsDoc nestedRootOfParts
    (acyclic_of_rank partsDoc
      (fun e => if e.id = "20" then 2 else if e.id = "12" then 1 else 0) (by decide)),
   by decide⟩

end Divergence

section Outline

open Building

/-- C26, at a failing input: relation 20 of `partsDoc` has the way 10 as its outline,
yet lines 67-80 call the constructor of the outer element with the id "20" of the
relation, whatever the constructors are; the part that lines 53-62 build for that id
holds the relation itself as its element; and the constructor of the building ends with
a `TypeError`, so that no outer element over the way 10 exists. Where the outline is the
relation 12 (`outlineRelationDoc`), the outer element has the id "12" of the outline. -/
theorem C26_outline_way_gets_relation_id :
    (getElementById partsDoc "20").map
      (fun root => (querySelectorAllMembers root "outline").map (fun m => m.ref)) =
      some ["10"] ∧
    (∀ make makeMulti : String → Except JSError (BuildingPart ℚ),
      (getElementById partsDoc "20").map (makeOuterElementWith make makeMulti "20" partsDoc) =
        some (make "20")) ∧
    ((getElementById partsDoc "20").bind
      (fun root =>
        (makeOuterElementWith (fun i => BuildingPart.initialise testEnv i partsDoc [] none)
          (fun i => BuildingPart.createMulti testEnv i partsDoc [] none)
          "20" partsDoc root).toOption)).map
      (fun o => (o.id, o.kind, o.way.tagName)) = some ("20", .buildingPart, "relation") ∧
    (construct testEnv 4 "20" partsDoc).thrown = some .typeError ∧
    (construct testEnv 4 "20" partsDoc).result.isNone = true ∧
    (getElementById outlineRelationDoc "20").map
      (fun root => (querySelectorAllMembers root "outline").map (fun m => m.ref)) =
      some ["12"] ∧
    (construct testEnv 4 "20" outlineRelationDoc).result.map
      (fun b => b.outerElement.map (fun o => (o.id, o.kind, o.way.tagName))) =
      some (some ("12", .multiBuildingPart, "relation")) :=
  ⟨by decide, fun _ _ => rfl, by decide, by decide, by decide, by decide, by decide⟩

end Outline

end OSMBuilding
